import Mathlib

/-!
# Verification of the fioc-codegen resolution pipeline

A shallow embedding of the dependency-injection code generator: its five
resolution/emission passes (`collectTokens`, `autoDetectTokens`,
`collectFactories`, `generateTokens`, `generateContainers`) over an explicit
`GeneratorState`, together with the type-level utilities they use
(`getTypeName`, `isPrimitive`, `ensureToken`, `extractMetadata`).

Types are modelled by the finite query surface the code actually consults on
a `ts-morph` `Type`: symbol name, text, object-ness, type arguments, base
types, call-signature return types, and the first-call-signature return types
of the symbol's class/function/variable declarations.  JavaScript `Map`s are
modelled as insertion-ordered association lists (`Map.set` updates in place,
appends new keys at the end; iteration follows insertion order), and
JavaScript `Set`s as dedup-on-insert lists.  Fatal `throw`s are modelled with
`Except String`.  Import bookkeeping (`tokensImports` / `factoriesImports`)
and the emitted file text are peripheral to resolution — they never feed back
into tokens, factories, ordering, or registration decisions — and are not
modelled; pass 4 (`generateFactories`) only emits text and mutates no
resolution state, so the pipeline model goes straight from pass 3 to pass 5.
-/

namespace Fioc

/-- A JSDoc tag as the code queries it: the tag name and the optional free
text following it (`getTagName()` / `getCommentText()`). -/
structure Tag where
  name : String
  comment : Option String
deriving DecidableEq

/-- The portion of a `ts-morph` `Type` that the generator consults:
`getSymbol()?.getName()`, `getText()`, `isObject()`, `getTypeArguments()`,
`getBaseTypes()`, the return types of `getCallSignatures()`, and — for
`extractMetadata`'s declaration walk — the first-call-signature return types
of the symbol's class/function/variable declarations. -/
inductive Ty where
  | mk : Option String → String → Bool → List Ty → List Ty → List Ty → List Ty → Ty

def Ty.symbolName : Ty → Option String
  | .mk s _ _ _ _ _ _ => s

def Ty.text : Ty → String
  | .mk _ t _ _ _ _ _ => t

def Ty.isObj : Ty → Bool
  | .mk _ _ o _ _ _ _ => o

def Ty.typeArgs : Ty → List Ty
  | .mk _ _ _ a _ _ _ => a

def Ty.baseTypes : Ty → List Ty
  | .mk _ _ _ _ b _ _ => b

def Ty.callSigRets : Ty → List Ty
  | .mk _ _ _ _ _ c _ => c

def Ty.declRets : Ty → List Ty
  | .mk _ _ _ _ _ _ d => d

/-- `String.contains`, computed over the character list. -/
def strContains (s : String) (c : Char) : Bool := s.data.contains c

/-- `String.toLowerCase`, computed over the character list. -/
def strToLower (s : String) : String := String.mk (s.data.map Char.toLower)

/-- `String.trim`: strip leading and trailing whitespace, computed over the
character list. -/
def strTrim (s : String) : String :=
  String.mk
    (((s.data.dropWhile Char.isWhitespace).reverse.dropWhile
        Char.isWhitespace).reverse)

/-- `type.getText().replace(/<.*>/, "")`: the (greedy, first-match) regex
removes everything from the first `<` through the last `>` of the string,
when such a pair exists. -/
def stripGenerics (s : String) : String :=
  let cs := s.toList
  match cs.findIdx? (· = '<') with
  | none => s
  | some i =>
    match cs.reverse.findIdx? (· = '>') with
    | none => s
    | some rj =>
      let j := cs.length - 1 - rj
      if i < j then String.mk (cs.take i ++ cs.drop (j + 1)) else s

/-- `getTypeName` (src/utils.ts): the symbol's name when it exists, is
nonempty and is not `"__type"`; otherwise the text representation with
generic arguments stripped. -/
def getTypeName (t : Ty) : String :=
  match t.symbolName with
  | some n => if n ≠ "" ∧ n ≠ "__type" then n else stripGenerics t.text
  | none => stripGenerics t.text

/-- `isPrimitive` (src/utils.ts). -/
def isPrimitive (name : String) : Bool :=
  ["string", "number", "boolean", "any", "void", "unknown"].contains name

/-- `hasTag`: any JSDoc tag whose lowercased name matches. -/
def hasTagL (tags : List Tag) (tag : String) : Bool :=
  tags.any fun tg => strToLower tg.name = strToLower tag

/-- `getTagValue`: the first matching tag's trimmed comment, with the empty
string collapsing to `none` (`comment?.trim() || null`). -/
def getTagValueL (tags : List Tag) (tag : String) : Option String :=
  match tags.find? (fun tg => strToLower tg.name = strToLower tag) with
  | some tg =>
    match tg.comment with
    | some c => let c' := strTrim c; if c' = "" then none else some c'
    | none => none
  | none => none

/-- `DEFAULT_MODULE` (src/config.ts). -/
def DEFAULT_MODULE : String := "default"

/-- `getModuleName`: the `@Module` tag value, defaulting to `"default"`. -/
def getModuleNameL (tags : List Tag) : String :=
  (getTagValueL tags "Module").getD DEFAULT_MODULE

inductive Lifecycle where
  | transient
  | singleton'
  | scoped
deriving DecidableEq

/-- `getLifecycle`: `@Singleton`, then `@Scoped`, defaulting to transient. -/
def getLifecycleL (tags : List Tag) : Lifecycle :=
  if hasTagL tags "Singleton" then .singleton'
  else if hasTagL tags "Scoped" then .scoped
  else .transient

/-- `Factory.metadata` (src/types.ts): token references this factory's
produced type realizes, and the tokens of its generic arguments. -/
structure Metadata where
  implements : List String
  generics : List String
deriving DecidableEq

/-- A `Factory` record as pushed by `processFactory` (src/types.ts 129-142).
`filePath` only feeds import emission and is not modelled.  `metadata` is
total because the collector always sets it.  The source declares a
`returnType` field; no field named `returnTypeName` exists. -/
structure Factory where
  name : String
  isClass : Bool
  deps : List String
  returnType : String
  module : String
  lifecycle : Lifecycle
  isMultiServiceImpl : Bool
  metadata : Metadata
deriving DecidableEq

/-- The shared `GeneratorState` (src/types.ts), restricted to the fields
that feed resolution: the `tokens` map (TypeName → TokenName, insertion
ordered), the `multiServices` set, and the factory list. -/
structure GeneratorState where
  tokens : List (String × String)
  multiServices : List String
  factories : List Factory
deriving DecidableEq

/-- `Map.get`. -/
def alGet {α : Type} (m : List (String × α)) (k : String) : Option α :=
  (m.find? (fun p => p.1 = k)).map (·.2)

/-- `Map.set`: update an existing key in place, else append at the end. -/
def alSet {α : Type} (m : List (String × α)) (k : String) (v : α) :
    List (String × α) :=
  if m.any (fun p => p.1 = k) then
    m.map fun p => if p.1 = k then (k, v) else p
  else m ++ [(k, v)]

/-- `Set.add` on a dedup list. -/
def setAdd (l : List String) (x : String) : List String :=
  if l.contains x then l else l ++ [x]

/-- First error message of `ensureToken` (anonymous object type detected on
the type object itself). -/
def inlineObjectErr1 (context typeText : String) : String :=
  "\n\n❌ ERROR: Inline object type detected in " ++ context ++ "!\n" ++
  "   Type: " ++ typeText ++ "\n\n" ++
  "   Inline object types cannot be used as DI tokens.\n" ++
  "   Please create a named type or interface instead.\n\n" ++
  "   Example:\n" ++
  "   ❌ Bad:  INotification<\x7b id: string \x7d>\n" ++
  "   ✅ Good: INotification<MyPayload>\n\n"

/-- Second error message of `ensureToken` (braces surfacing in the resolved
type name). -/
def inlineObjectErr2 (context name : String) : String :=
  "\n\n❌ ERROR: Inline object type detected in " ++ context ++ "!\n" ++
  "   Type: " ++ name ++ "\n\n" ++
  "   Inline object types cannot be used as DI tokens.\n" ++
  "   Please create a named type or interface instead.\n\n" ++
  "   Example:\n" ++
  "   ❌ Bad:  \x7b id: string; name: string \x7d\n" ++
  "   ✅ Good: UserPayload\n\n"

/-- `ensureToken` (src/utils.ts 112-165): reject anonymous/inline object
types, skip primitives and unnamed types (returning `""`), otherwise return
the existing token for the type name or mint `"<name>Token>"`.  The import
bookkeeping of lines 151-162 is peripheral and unmodelled. -/
def ensureToken (s : GeneratorState) (t : Ty) (context : String) :
    Except String (GeneratorState × String) :=
  if t.isObj ∧ t.symbolName = none ∧ strContains t.text '\x7b' ∧ strContains t.text '\x7d' then
    .error (inlineObjectErr1 context t.text)
  else
    let name := getTypeName t
    if name = "" ∨ isPrimitive name then .ok (s, "")
    else if strContains name '\x7b' ∨ strContains name '\x7d' then
      .error (inlineObjectErr2 context name)
    else
      match alGet s.tokens name with
      | some tok => .ok (s, tok)
      | none => .ok ({ s with tokens := alSet s.tokens name (name ++ "Token") },
                     name ++ "Token")

/-- Run `ensureToken` over a list of types, keeping the nonempty token names
in order (`params.map(ensureToken).filter(Boolean)` and the per-argument
`forEach` loops). -/
def ensureTokensFor (s : GeneratorState) (ts : List Ty) (context : String) :
    Except String (GeneratorState × List String) :=
  match ts with
  | [] => .ok (s, [])
  | t :: rest =>
    match ensureToken s t context with
    | .error e => .error e
    | .ok (s1, tok) =>
      match ensureTokensFor s1 rest context with
      | .error e => .error e
      | .ok (s2, toks) => .ok (s2, if tok = "" then toks else tok :: toks)

/-- `[...new Set(list)]`: de-duplication preserving first-occurrence order. -/
def dedupAux (seen : List String) : List String → List String
  | [] => []
  | x :: xs => if seen.contains x then dedupAux seen xs
               else x :: dedupAux (x :: seen) xs

def dedupFirst (l : List String) : List String := dedupAux [] l

/-- The base-types loop of `extractMetadata` (src/utils.ts 187-204): for
each base type carrying a token, push the token (no duplicate check here)
and collect tokens for its generic arguments. -/
def extractBases (s : GeneratorState) (bases : List Ty)
    (impls gens : List String) :
    Except String (GeneratorState × List String × List String) :=
  match bases with
  | [] => .ok (s, impls, gens)
  | b :: rest =>
    let bn := getTypeName b
    match alGet s.tokens bn with
    | some btok =>
      match ensureTokensFor s b.typeArgs (bn ++ " generic") with
      | .error e => .error e
      | .ok (s1, gtoks) => extractBases s1 rest (impls ++ [btok]) (gens ++ gtoks)
    | none => extractBases s rest impls gens

/-- The return-type base-types loop of `extractMetadata` (src/utils.ts
236-251): like `extractBases` but with an `includes` duplicate check before
pushing (and the argument walk guarded by the same check). -/
def extractRetBases (s : GeneratorState) (bases : List Ty)
    (impls gens : List String) :
    Except String (GeneratorState × List String × List String) :=
  match bases with
  | [] => .ok (s, impls, gens)
  | b :: rest =>
    let bn := getTypeName b
    match alGet s.tokens bn with
    | some btok =>
      if impls.contains btok then extractRetBases s rest impls gens
      else
        match ensureTokensFor s b.typeArgs (bn ++ " generic") with
        | .error e => .error e
        | .ok (s1, gtoks) =>
          extractRetBases s1 rest (impls ++ [btok]) (gens ++ gtoks)
    | none => extractRetBases s rest impls gens

/-- The declaration walk of `extractMetadata` (src/utils.ts 207-255): for
each class/function/variable declaration of the type's symbol that has a
call signature, process the first signature's return type — its own token
(guarded by an `includes` check) with its generic arguments, then its base
types. -/
def extractRets (s : GeneratorState) (rets : List Ty)
    (impls gens : List String) :
    Except String (GeneratorState × List String × List String) :=
  match rets with
  | [] => .ok (s, impls, gens)
  | r :: rest =>
    match
      (match alGet s.tokens (getTypeName r) with
       | some rtok =>
         if impls.contains rtok then .ok (s, impls, gens)
         else
           match ensureTokensFor s r.typeArgs (getTypeName r ++ " generic") with
           | .error e => .error e
           | .ok (s1, gtoks) => .ok (s1, impls ++ [rtok], gens ++ gtoks)
       | none => .ok (s, impls, gens) :
        Except String (GeneratorState × List String × List String)) with
    | .error e => .error e
    | .ok (s1, impls1, gens1) =>
      match extractRetBases s1 r.baseTypes impls1 gens1 with
      | .error e => .error e
      | .ok (s2, impls2, gens2) => extractRets s2 rest impls2 gens2

/-- `extractMetadata` (src/utils.ts 167-261): collect `implements` and
`generics` token lists from the type itself (when it already carries a
token), its base types, and — when the type has a symbol — the return types
of its declarations' call signatures; both result lists are de-duplicated
preserving first discovery. -/
def extractMetadata (s : GeneratorState) (t : Ty) :
    Except String (GeneratorState × Metadata) :=
  match
    (match alGet s.tokens (getTypeName t) with
     | some tok =>
       match ensureTokensFor s t.typeArgs (getTypeName t ++ " generic") with
       | .error e => .error e
       | .ok (s1, gtoks) => .ok (s1, [tok], gtoks)
     | none => .ok (s, [], []) :
      Except String (GeneratorState × List String × List String)) with
  | .error e => .error e
  | .ok (s1, impls1, gens1) =>
    match extractBases s1 t.baseTypes impls1 gens1 with
    | .error e => .error e
    | .ok (s2, impls2, gens2) =>
      if t.symbolName.isSome then
        match extractRets s2 t.declRets impls2 gens2 with
        | .error e => .error e
        | .ok (s3, impls3, gens3) =>
          .ok (s3, { implements := dedupFirst impls3, generics := dedupFirst gens3 })
      else
        .ok (s2, { implements := dedupFirst impls2, generics := dedupFirst gens2 })

/-! ## Declarations and source files -/

/-- An exported type alias as the passes query it. -/
structure TypeAliasDecl where
  name : String
  exported : Bool
  tags : List Tag
  aliasType : Ty

/-- An interface declaration; `extendsTypes` are `getExtends().map(e =>
e.getType())`. -/
structure InterfaceDecl where
  name : String
  exported : Bool
  tags : List Tag
  extendsTypes : List Ty

/-- A class declaration; `ctorParams` are the first constructor's parameter
types (empty when there is no constructor), `selfType` is
`cls.getType()`. -/
structure ClassDecl where
  name : String
  exported : Bool
  tags : List Tag
  ctorParams : List Ty
  selfType : Ty

/-- A function declaration; `declType` is `fn.getType()` (its call-signature
return types drive produced-type resolution). -/
structure FunctionDecl where
  name : String
  tags : List Tag
  params : List Ty
  declType : Ty

/-- A variable declaration.  `parentTags` are the JSDoc tags reachable from
`v.getParent()` (a `VariableDeclarationList`, which ts-morph reports as
having none — the repository's own limitation #1); `stmtTags` are the tags
of `getVariableStatement()` when present; `initIsFn` says whether the
initializer is a function or arrow expression. -/
structure VarDecl where
  name : String
  parentTags : List Tag
  stmtTags : Option (List Tag)
  initIsFn : Bool
  params : List Ty
  declType : Ty

/-- A namespace (`ModuleDeclaration`) with the member lists the passes scan. -/
structure NamespaceDecl where
  typeAliases : List TypeAliasDecl
  interfaces : List InterfaceDecl
  classes : List ClassDecl
  functions : List FunctionDecl
  vars : List VarDecl

/-- A source file with the member lists the passes scan. -/
structure SourceFile where
  typeAliases : List TypeAliasDecl
  interfaces : List InterfaceDecl
  classes : List ClassDecl
  functions : List FunctionDecl
  vars : List VarDecl
  namespaces : List NamespaceDecl

/-! ## Pass 1: `collectTokens` (src/collectors/tokenCollector.ts 14-62) -/

/-- The name/exported/tags projection that `collectFromNodes` reads off each
type alias, interface, or class node. -/
structure NamedDecl where
  name : String
  exported : Bool
  tags : List Tag

def TypeAliasDecl.toNamed (d : TypeAliasDecl) : NamedDecl :=
  ⟨d.name, d.exported, d.tags⟩

def InterfaceDecl.toNamed (d : InterfaceDecl) : NamedDecl :=
  ⟨d.name, d.exported, d.tags⟩

def ClassDecl.toNamed (d : ClassDecl) : NamedDecl :=
  ⟨d.name, d.exported, d.tags⟩

/-- One step of `collectFromNodes`: exported declarations tagged `@Service`
or `@MultiService` get `"<name>Token"` registered; `@MultiService` names are
additionally recorded in the `multiServices` set. -/
def collectOne (s : GeneratorState) (n : NamedDecl) : GeneratorState :=
  if ¬ n.exported then s
  else
    let hasService := hasTagL n.tags "Service"
    let hasMultiService := hasTagL n.tags "MultiService"
    if ¬ (hasService ∨ hasMultiService) then s
    else if n.name = "" then s
    else
      let s1 := { s with tokens := alSet s.tokens n.name (n.name ++ "Token") }
      if hasMultiService then
        { s1 with multiServices := setAdd s1.multiServices n.name }
      else s1

def collectList (s : GeneratorState) (ns : List NamedDecl) : GeneratorState :=
  ns.foldl collectOne s

/-- The node order `collectTokens` visits within a file: top-level aliases,
interfaces, classes, then the same triple inside each namespace. -/
def fileNamedDecls (f : SourceFile) : List NamedDecl :=
  f.typeAliases.map TypeAliasDecl.toNamed ++
  f.interfaces.map InterfaceDecl.toNamed ++
  f.classes.map ClassDecl.toNamed ++
  (f.namespaces.map fun ns =>
    ns.typeAliases.map TypeAliasDecl.toNamed ++
    ns.interfaces.map InterfaceDecl.toNamed ++
    ns.classes.map ClassDecl.toNamed).flatten

def collectTokens (s : GeneratorState) (files : List SourceFile) :
    GeneratorState :=
  files.foldl (fun acc f => collectList acc (fileNamedDecls f)) s

/-! ## Pass 1.5: `autoDetectTokens` (src/collectors/tokenCollector.ts 64-120) -/

/-- Auto-detect a type alias: exported, named, not tagged `@Token`, whose
aliased type's symbol already carries a token, and itself untokenized. -/
def autoDetectAlias (s : GeneratorState) (ta : TypeAliasDecl) :
    GeneratorState :=
  if ¬ ta.exported then s
  else if ta.name = "" then s
  else if hasTagL ta.tags "Token" then s
  else
    let baseTypeName := ta.aliasType.symbolName.getD ""
    match alGet s.tokens baseTypeName with
    | some _ =>
      if ¬ (s.tokens.any (fun p => p.1 = ta.name)) ∧ baseTypeName ≠ "" then
        { s with tokens := alSet s.tokens ta.name (ta.name ++ "Token") }
      else s
    | none => s

/-- Auto-detect an interface extension: first extended type whose symbol
carries a token wins (`break`). -/
def autoDetectExtends (s : GeneratorState) (ifaceName : String) :
    List Ty → GeneratorState
  | [] => s
  | e :: rest =>
    let baseTypeName := e.symbolName.getD ""
    match alGet s.tokens baseTypeName with
    | some _ =>
      if ¬ (s.tokens.any (fun p => p.1 = ifaceName)) ∧ baseTypeName ≠ "" then
        { s with tokens := alSet s.tokens ifaceName (ifaceName ++ "Token") }
      else autoDetectExtends s ifaceName rest
    | none => autoDetectExtends s ifaceName rest

def autoDetectIface (s : GeneratorState) (i : InterfaceDecl) :
    GeneratorState :=
  if ¬ i.exported then s
  else if i.name = "" then s
  else if hasTagL i.tags "Token" then s
  else autoDetectExtends s i.name i.extendsTypes

def autoDetectTokens (s : GeneratorState) (files : List SourceFile) :
    GeneratorState :=
  files.foldl (fun acc f =>
    let acc1 := f.typeAliases.foldl autoDetectAlias acc
    f.interfaces.foldl autoDetectIface acc1) s

/-! ## Pass 2: `collectFactories` (src/collectors, "factory collector") -/

/-- The produced type of a declaration (src factory collector 39-50): the
class's own type for classes; otherwise the first call signature's return
type, `none` meaning "no call signature" (skip with a warning). -/
def resolveReturnType (isClass : Bool) (declType : Ty) : Option Ty :=
  if isClass then some declType else declType.callSigRets.head?

/-- `processFactory` (src factory collector 27-83): resolve parameter
dependencies, resolve the produced type (skipping the declaration when a
callable has no call signature), extract metadata, detect multi-service
implementations, and push the `Factory` record. -/
def processFactory (s : GeneratorState) (name : String) (isClass : Bool)
    (params : List Ty) (declType : Ty) (moduleName : String)
    (lifecycle : Lifecycle) : Except String GeneratorState :=
  match ensureTokensFor s params (name ++ " parameter") with
  | .error e => .error e
  | .ok (s1, paramDeps) =>
    match resolveReturnType isClass declType with
    | none => .ok s1
    | some returnType =>
      let returnTypeName := getTypeName returnType
      match extractMetadata s1 returnType with
      | .error e => .error e
      | .ok (s2, metadata) =>
        let isMultiServiceImpl := s2.multiServices.contains returnTypeName
        let actualReturnType := if isMultiServiceImpl then name else returnTypeName
        .ok { s2 with factories := s2.factories ++ [{
          name := name
          isClass := isClass
          deps := paramDeps
          returnType := actualReturnType
          module := moduleName
          lifecycle := lifecycle
          isMultiServiceImpl := isMultiServiceImpl
          metadata :=
            if isMultiServiceImpl then
              { implements := [returnTypeName], generics := metadata.generics }
            else metadata }] }

/-- The `@Injectable` function branch of `collectFactories`. -/
def collectFromFunction (s : GeneratorState) (fn : FunctionDecl) :
    Except String GeneratorState :=
  if ¬ hasTagL fn.tags "Injectable" then .ok s
  else if fn.name = "" then .ok s
  else processFactory s fn.name false fn.params fn.declType
        (getModuleNameL fn.tags) (getLifecycleL fn.tags)

/-- The `@Injectable` class branch of `collectFactories`. -/
def collectFromClass (s : GeneratorState) (cls : ClassDecl) :
    Except String GeneratorState :=
  if ¬ hasTagL cls.tags "Injectable" then .ok s
  else if cls.name = "" then .ok s
  else processFactory s cls.name true cls.ctorParams cls.selfType
        (getModuleNameL cls.tags) (getLifecycleL cls.tags)

/-- The variable-declaration branch of `collectFactories`:
`hasTagOnVar` queries the declaration's parent node, and the module and
lifecycle come from the enclosing variable statement (defaulting when it is
missing). -/
def collectFromVar (s : GeneratorState) (v : VarDecl) :
    Except String GeneratorState :=
  if ¬ hasTagL v.parentTags "Injectable" then .ok s
  else if ¬ v.initIsFn then .ok s
  else
    let moduleName :=
      match v.stmtTags with
      | none => "default"
      | some tags => (getTagValueL tags "Module").getD "default"
    let lifecycle :=
      match v.stmtTags with
      | none => Lifecycle.transient
      | some tags =>
        if hasTagL tags "Singleton" then .singleton'
        else if hasTagL tags "Scoped" then .scoped
        else .transient
    processFactory s v.name false v.params v.declType moduleName lifecycle

def collectFnList : GeneratorState → List FunctionDecl →
    Except String GeneratorState
  | s, [] => .ok s
  | s, d :: ds =>
    match collectFromFunction s d with
    | .error e => .error e
    | .ok s' => collectFnList s' ds

def collectClassList : GeneratorState → List ClassDecl →
    Except String GeneratorState
  | s, [] => .ok s
  | s, d :: ds =>
    match collectFromClass s d with
    | .error e => .error e
    | .ok s' => collectClassList s' ds

def collectVarList : GeneratorState → List VarDecl →
    Except String GeneratorState
  | s, [] => .ok s
  | s, d :: ds =>
    match collectFromVar s d with
    | .error e => .error e
    | .ok s' => collectVarList s' ds

/-- Per-file order of `collectFactories`: functions, classes, variables,
then each namespace's functions, classes, variables. -/
def collectFactoriesFile (s : GeneratorState) (f : SourceFile) :
    Except String GeneratorState :=
  match collectFnList s f.functions with
  | .error e => .error e
  | .ok s1 =>
    match collectClassList s1 f.classes with
    | .error e => .error e
    | .ok s2 =>
      match collectVarList s2 f.vars with
      | .error e => .error e
      | .ok s3 =>
        (f.namespaces.foldl (fun acc ns =>
          match acc with
          | .error e => .error e
          | .ok s4 =>
            match collectFnList s4 ns.functions with
            | .error e => .error e
            | .ok s5 =>
              match collectClassList s5 ns.classes with
              | .error e => .error e
              | .ok s6 => collectVarList s6 ns.vars) (.ok s3))

def collectFactories : GeneratorState → List SourceFile →
    Except String GeneratorState
  | s, [] => .ok s
  | s, f :: fs =>
    match collectFactoriesFile s f with
    | .error e => .error e
    | .ok s' => collectFactories s' fs

/-! ## Pass 3: `generateTokens` (src/generators/tokensGenerator.ts) -/

/-- `tokenDeps.get(tokenName)!.add(genericToken)` — add to the named set
(no-op for an absent key, which the source's non-null assertion rules out:
the key was initialized at the top of the entry loop). -/
def depsAdd (m : List (String × List String)) (k g : String) :
    List (String × List String) :=
  m.map fun p => if p.1 = k then (p.1, setAdd p.2 g) else p

/-- `tokenDeps.get(tokenName) || new Set()`. -/
def depsOf (m : List (String × List String)) (k : String) : List String :=
  (alGet m k).getD []

/-- The first file-search hit of the deps-building loop: within each file,
an exported type alias named `typeName` wins over an exported interface,
and the first file with either wins (`break`). -/
def findDeclInFiles (typeName : String) :
    List SourceFile → Option (TypeAliasDecl ⊕ InterfaceDecl)
  | [] => none
  | f :: rest =>
    match f.typeAliases.find? (fun ta => ta.name = typeName ∧ ta.exported) with
    | some ta => some (.inl ta)
    | none =>
      match f.interfaces.find? (fun i => i.name = typeName ∧ i.exported) with
      | some i => some (.inr i)
      | none => findDeclInFiles typeName rest

/-- Process the generic arguments of a base type found for `tokenName`
(src/generators/tokensGenerator.ts 38-55 and 74-90): `ensureToken` each
argument, add nonempty tokens to `tokenName`'s dependency set, and record
metadata when at least one generic token was collected. -/
def processBaseArgs (s : GeneratorState) (deps : List (String × List String))
    (meta : List (String × Metadata)) (typeName tokenName baseToken : String)
    (args : List Ty) :
    Except String
      (GeneratorState × List (String × List String) × List (String × Metadata)) :=
  match ensureTokensFor s args (typeName ++ " generic argument") with
  | .error e => .error e
  | .ok (s1, gtoks) =>
    let deps1 := gtoks.foldl (fun d g => depsAdd d tokenName g) deps
    let meta1 :=
      if gtoks ≠ [] then
        alSet meta tokenName { implements := [baseToken], generics := gtoks }
      else meta
    .ok (s1, deps1, meta1)

/-- The interface-extension arm: scan `extendsTypes` until the first base
type whose symbol name carries a token (`break` on success). -/
def processIfaceExtends (s : GeneratorState)
    (deps : List (String × List String)) (meta : List (String × Metadata))
    (typeName tokenName : String) :
    List Ty →
    Except String
      (GeneratorState × List (String × List String) × List (String × Metadata))
  | [] => .ok (s, deps, meta)
  | e :: rest =>
    let baseTypeName := e.symbolName.getD ""
    match alGet s.tokens baseTypeName with
    | some baseToken => processBaseArgs s deps meta typeName tokenName baseToken e.typeArgs
    | none => processIfaceExtends s deps meta typeName tokenName rest

/-- One entry of the deps-building loop (src/generators/tokensGenerator.ts
21-97): initialize the token's dependency set, then search the files for
this type name's alias or interface declaration and collect its base token
and generic-argument dependencies. -/
def processDepsEntry (s : GeneratorState)
    (deps : List (String × List String)) (meta : List (String × Metadata))
    (files : List SourceFile) (typeName tokenName : String) :
    Except String
      (GeneratorState × List (String × List String) × List (String × Metadata)) :=
  let deps0 := alSet deps tokenName []
  match findDeclInFiles typeName files with
  | none => .ok (s, deps0, meta)
  | some (.inl ta) =>
    let baseTypeName := ta.aliasType.symbolName.getD ""
    match alGet s.tokens baseTypeName with
    | some baseToken =>
      processBaseArgs s deps0 meta typeName tokenName baseToken ta.aliasType.typeArgs
    | none => .ok (s, deps0, meta)
  | some (.inr i) => processIfaceExtends s deps0 meta typeName tokenName i.extendsTypes

/-- The deps-building loop iterates `state.tokens.entries()` while
`ensureToken` may append new entries; a JavaScript `Map` iterator visits
entries appended during iteration, so the loop is modelled by an index into
the growing association list.  The fuel only bounds the iteration count;
`depsFuel` below always suffices because every appended entry has a fresh
key and each alias/interface declaration can therefore be found at most
once. -/
def buildDepsLoop (files : List SourceFile) :
    Nat → GeneratorState → Nat → List (String × List String) →
    List (String × Metadata) →
    Except String
      (GeneratorState × List (String × List String) × List (String × Metadata))
  | 0, _, _, _, _ => .error "codegen model: deps fuel exhausted"
  | fuel + 1, s, i, deps, meta =>
    match s.tokens.get? i with
    | none => .ok (s, deps, meta)
    | some (typeName, tokenName) =>
      match processDepsEntry s deps meta files typeName tokenName with
      | .error e => .error e
      | .ok (s', deps', meta') => buildDepsLoop files fuel s' (i + 1) deps' meta'

def tyArgCount (t : Ty) : Nat := t.typeArgs.length

def fileArgsBound (f : SourceFile) : Nat :=
  (f.typeAliases.map fun ta => tyArgCount ta.aliasType).sum +
  (f.interfaces.map fun i => (i.extendsTypes.map tyArgCount).sum).sum

def depsFuel (s : GeneratorState) (files : List SourceFile) : Nat :=
  s.tokens.length + (files.map fileArgsBound).sum + 1

/-- State of the three-coloured depth-first traversal: `visited` (done),
`visiting` (in progress) and the accumulated `sorted` output. -/
structure VisitSt where
  visited : List String
  visiting : List String
  sorted : List String
deriving DecidableEq

/-- `visit` (src/generators/tokensGenerator.ts 138-152): return on done
nodes, throw on in-progress nodes (cycle), otherwise mark in-progress,
visit all dependencies in order, then mark done and append to the output.
The fuel only bounds recursion depth; every chain of in-progress nodes
consists of distinct keys of the deps map, so `deps.length + 2` is never
exhausted. -/
def visit (deps : List (String × List String)) :
    Nat → VisitSt → String → Except String VisitSt
  | fuel, st, t =>
    if st.visited.contains t then .ok st
    else if st.visiting.contains t then
      .error ("Circular dependency detected in token: " ++ t)
    else
      match fuel with
      | 0 => .error "codegen model: visit fuel exhausted"
      | n + 1 =>
        match (depsOf deps t).foldlM (fun acc d => visit deps n acc d)
            { st with visiting := st.visiting ++ [t] } with
        | .error e => .error e
        | .ok st2 =>
          .ok { visited := st2.visited ++ [t]
                visiting := st2.visiting.erase t
                sorted := st2.sorted ++ [t] }

/-- The toposort driver (src/generators/tokensGenerator.ts 154-156): visit
every token value in insertion order, sharing the colouring state. -/
def topoLoop (deps : List (String × List String)) :
    VisitSt → List String → Except String VisitSt
  | st, [] => .ok st
  | st, t :: ts =>
    match visit deps (deps.length + 2) st t with
    | .error e => .error e
    | .ok st' => topoLoop deps st' ts

/-- A `createDIToken`/`createFactoryDIToken` const emitted into the tokens
file: its const name, the TypeScript type argument, the `.as(...)` label,
and the optional metadata object. -/
structure TokenDecl where
  name : String
  tsType : String
  label : String
  meta : Option Metadata
deriving DecidableEq

/-- Emission of the sorted tokens (src/generators/tokensGenerator.ts
158-193): reverse-lookup each token's type name (skipping tokens with no
entry) and attach metadata when recorded. -/
def orderedTokenDecls (s : GeneratorState) (meta : List (String × Metadata)) :
    List String → List TokenDecl
  | [] => []
  | tokenName :: rest =>
    match s.tokens.find? (fun p => p.2 = tokenName) with
    | none => orderedTokenDecls s meta rest
    | some (typeName, _) =>
      { name := tokenName, tsType := typeName, label := typeName
        meta := alGet meta tokenName } :: orderedTokenDecls s meta rest

/-- Emission of per-factory tokens for multi-service implementations
(src/generators/tokensGenerator.ts 196-230): `"<factoryName>Token"`,
skipped when that name is already a registered token value; `implements`
metadata maps the recorded interface names to `"<name>Token"`; the
TypeScript type argument is the first implemented interface (JavaScript's
`undefined` when the list is empty). -/
def multiImplDecl (f : Factory) : TokenDecl :=
  { name := f.name ++ "Token"
    tsType := (f.metadata.implements.head?).getD "undefined"
    label := f.name
    meta :=
      if f.metadata.implements.isEmpty ∧ f.metadata.generics.isEmpty
      then none
      else some { implements := f.metadata.implements.map (· ++ "Token")
                  generics := f.metadata.generics } }

def multiImplStep (s : GeneratorState) (acc : List TokenDecl) (f : Factory) :
    List TokenDecl :=
  if f.isMultiServiceImpl then
    if (s.tokens.map (·.2)).contains (f.name ++ "Token") then acc
    else acc ++ [multiImplDecl f]
  else acc

def multiImplTokenDecls (s : GeneratorState) : List TokenDecl :=
  s.factories.foldl (multiImplStep s) []

/-- The output of pass 3 kept by the model: the (possibly grown) state, the
token dependency map, the recorded token metadata, the topological token
order, and the emitted token consts. -/
structure GenTokensOut where
  state : GeneratorState
  deps : List (String × List String)
  metaMap : List (String × Metadata)
  order : List String
  decls : List TokenDecl
deriving DecidableEq

/-- `generateTokens` (src/generators/tokensGenerator.ts 10-231): build the
token dependency graph (minting generic-argument tokens on demand),
topologically sort all token values, then emit the ordered token consts
followed by the multi-service per-factory tokens.  The import handling of
lines 99-131 emits text only and is unmodelled. -/
def generateTokens (s : GeneratorState) (files : List SourceFile) :
    Except String GenTokensOut :=
  match buildDepsLoop files (depsFuel s files) s 0 [] [] with
  | .error e => .error e
  | .ok (s1, deps, meta) =>
    match topoLoop deps ⟨[], [], []⟩ (s1.tokens.map (·.2)) with
    | .error e => .error e
    | .ok st =>
      .ok { state := s1, deps := deps, metaMap := meta, order := st.sorted
            decls := orderedTokenDecls s1 meta st.sorted ++ multiImplTokenDecls s1 }

/-! ## Pass 5: `generateContainers` (container generator) -/

/-- The container generator reads `factory.returnTypeName` — a field that
the `Factory` interface does not declare and that no collector ever sets
(records store the produced type under `returnType`).  In JavaScript the
access evaluates to `undefined`; the model renders an absent field as
`none`. -/
def Factory.returnTypeName (_ : Factory) : Option String := none

/-- A `.registerFactory(target, Factories.<name>Factory)` binding target:
either the per-factory token `Factories.<name>Token` or a produced-type
token `Factories.Tokens.<tokenName>`. -/
inductive BindingTarget where
  | factoryToken : String → BindingTarget
  | typeToken : String → BindingTarget
deriving DecidableEq

/-- One registration in a module's container. -/
structure Registration where
  target : BindingTarget
  factoryName : String
deriving DecidableEq

/-- Append a factory to its module's group, preserving first-occurrence
order of module keys (`factoriesByModule` Map). -/
def addToModule (gs : List (String × List Factory)) (m : String)
    (f : Factory) : List (String × List Factory) :=
  if gs.any (fun p => p.1 = m) then
    gs.map fun p => if p.1 = m then (p.1, p.2 ++ [f]) else p
  else gs ++ [(m, [f])]

def groupByModule (fs : List Factory) : List (String × List Factory) :=
  fs.foldl (fun acc f => addToModule acc f.module f) []

/-- The per-factory registration decision (container generator 59-76):
bind the per-factory token when the factory carries nonempty metadata or
when the produced-type token lookup (through the undeclared
`returnTypeName` field) misses; otherwise bind the produced type's token. -/
def registrationFor (s : GeneratorState) (f : Factory) : Registration :=
  let hasMetadata := ¬ f.metadata.implements.isEmpty ∨ ¬ f.metadata.generics.isEmpty
  let returnToken : Option String :=
    match f.returnTypeName with
    | none => none
    | some k => alGet s.tokens k
  if hasMetadata then { target := .factoryToken f.name, factoryName := f.name }
  else
    match returnToken with
    | none => { target := .factoryToken f.name, factoryName := f.name }
    | some rt => { target := .typeToken rt, factoryName := f.name }

/-- `generateContainers` (container generator 11-96): group factories by
module and produce each module's ordered registration list.  File creation
and text formatting are emission-only and unmodelled. -/
def generateContainers (s : GeneratorState) :
    List (String × List Registration) :=
  (groupByModule s.factories).map fun g => (g.1, g.2.map (registrationFor s))

/-! ## The pipeline driver (`run`) -/

/-- The resolution artifacts of one `run`: tokens, factory records, the
token dependency map and ordering with the emitted token consts, and the
per-module registration plan. -/
structure PipelineOut where
  tokens : List (String × String)
  factories : List Factory
  deps : List (String × List String)
  tokenOrder : List String
  tokenDecls : List TokenDecl
  plan : List (String × List Registration)
deriving DecidableEq

def initialState : GeneratorState :=
  { tokens := [], multiServices := [], factories := [] }

/-- `run` (main entry point): fresh state, then `collectTokens`,
`autoDetectTokens`, `collectFactories`, `generateTokens`,
`generateContainers` in fixed order.  A fatal error in any pass unwinds
immediately and no artifact is produced.  Pass 4 (`generateFactories`)
emits text only and mutates no resolution state. -/
def pipelineRun (files : List SourceFile) : Except String PipelineOut :=
  let s1 := collectTokens initialState files
  let s2 := autoDetectTokens s1 files
  match collectFactories s2 files with
  | .error e => .error e
  | .ok s3 =>
    match generateTokens s3 files with
    | .error e => .error e
    | .ok out =>
      .ok { tokens := out.state.tokens
            factories := out.state.factories
            deps := out.deps
            tokenOrder := out.order
            tokenDecls := out.decls
            plan := generateContainers out.state }

/-! ## Bounded-depth view of `extractMetadata` (for the termination claim)

`extractMetadata` never recurses: it inspects the type's own head, the heads
of its type arguments, its base types with their argument heads, and its
declarations' return types with their argument heads and base types.  The
`trunc*` functions cut a type down to exactly that inspected portion. -/

/-- Keep only the head fields a single `ensureToken`/`getTypeName` call
reads. -/
def headOnly (u : Ty) : Ty := .mk u.symbolName u.text u.isObj [] [] [] []

/-- Keep a head plus the heads of its type arguments (what the base-type
loops read). -/
def truncShallow (u : Ty) : Ty :=
  .mk u.symbolName u.text u.isObj (u.typeArgs.map headOnly) [] [] []

/-- Keep what the declaration walk reads of a return type: its head, its
argument heads, and its base types with their argument heads. -/
def truncRet (r : Ty) : Ty :=
  .mk r.symbolName r.text r.isObj (r.typeArgs.map headOnly)
    (r.baseTypes.map truncShallow) [] []

/-- The full portion of a type that `extractMetadata` inspects. -/
def truncTy (t : Ty) : Ty :=
  .mk t.symbolName t.text t.isObj (t.typeArgs.map headOnly)
    (t.baseTypes.map truncShallow) [] (t.declRets.map truncRet)

/-- Modelled from the spec: §4.4's metadata walk — the recursion "bounded by
a visited-set keyed on type identity" that the specification prescribes and
the source does not contain.  It adds the type's own token to `implements`,
resolves each generic argument through the registry to a `generics` token
("minting on demand for any named, non-primitive argument", §4.2), and
*recurses* into generic arguments and base types, stopping at already
visited types (identity taken as the type's text) or at the depth counter
the spec offers as an alternative bound. -/
def tokenOfSpec (s : GeneratorState) (a : Ty) : String :=
  let n := getTypeName a
  if n = "" ∨ isPrimitive n then "" else (alGet s.tokens n).getD (n ++ "Token")

/-- Modelled from the spec (see `tokenOfSpec`): the recursive walk itself. -/
def extractMetadataSpecGo (s : GeneratorState) :
    Nat → List String → List String → List String → Ty →
    List String × List String × List String
  | 0, visited, impls, gens, _ => (visited, impls, gens)
  | fuel + 1, visited, impls, gens, t =>
    if visited.contains t.text then (visited, impls, gens)
    else
      let visited1 := visited ++ [t.text]
      let (impls1, gens1) :=
        match alGet s.tokens (getTypeName t) with
        | some tok =>
          (impls ++ [tok],
           gens ++ (t.typeArgs.map (tokenOfSpec s)).filter (· ≠ ""))
        | none => (impls, gens)
      let (visited2, impls2, gens2) :=
        t.typeArgs.foldl
          (fun acc a => extractMetadataSpecGo s fuel acc.1 acc.2.1 acc.2.2 a)
          (visited1, impls1, gens1)
      let (impls3, gens3) :=
        t.baseTypes.foldl (fun acc b =>
          match alGet s.tokens (getTypeName b) with
          | some btok =>
            (acc.1 ++ [btok],
             acc.2 ++ (b.typeArgs.map (tokenOfSpec s)).filter (· ≠ ""))
          | none => acc) (impls2, gens2)
      (t.baseTypes ++ t.declRets).foldl
        (fun acc b => extractMetadataSpecGo s fuel acc.1 acc.2.1 acc.2.2 b)
        (visited2, impls3, gens3)

/-- Modelled from the spec (see `tokenOfSpec`): the de-duplicated result of
the visited-set-bounded recursive walk. -/
def extractMetadataSpec (s : GeneratorState) (fuel : Nat) (t : Ty) : Metadata :=
  let r := extractMetadataSpecGo s fuel [] [] [] t
  { implements := dedupFirst r.2.1, generics := dedupFirst r.2.2 }

/-! ## Concrete inputs -/

/-- A named (symbol-carrying) object type with no arguments, bases or
signatures. -/
def namedTy (n : String) : Ty := .mk (some n) n true [] [] [] []

/-- The tag `@Service` with no payload. -/
def serviceTag : Tag := ⟨"Service", none⟩

def multiServiceTag : Tag := ⟨"MultiService", none⟩

def injectableTag : Tag := ⟨"Injectable", none⟩

/-- A function type with the given call-signature return types. -/
def fnTy (rets : List Ty) : Ty := .mk none "fn" false [] [] rets []

/-- Scenario 1 (C1): interface `A` (`@Service`, single) and factory
`F(): A` with no parameters. -/
def scenario1File : SourceFile :=
  { typeAliases := []
    interfaces := [⟨"A", true, [serviceTag], []⟩]
    classes := []
    functions := [⟨"F", [injectableTag], [], fnTy [namedTy "A"]⟩]
    vars := []
    namespaces := [] }

/-- An anonymous inline object type (no symbol, braces in its text). -/
def anonTy (txt : String) : Ty := .mk none txt true [] [] [] []

/-- C2: a factory whose parameter is an inline anonymous object. -/
def anonParamFile : SourceFile :=
  { typeAliases := []
    interfaces := [⟨"IService", true, [serviceTag], []⟩]
    classes := []
    functions := [⟨"BadFactory", [injectableTag],
                   [anonTy "\x7b apiUrl: string \x7d"],
                   fnTy [namedTy "IService"]⟩]
    vars := []
    namespaces := [] }

/-- C2: a factory returning `IHandler<{...}>` — an anonymous type in generic
argument position of a token-bearing type. -/
def anonGenericFile : SourceFile :=
  { typeAliases := []
    interfaces := [⟨"IHandler", true, [serviceTag], []⟩]
    classes := []
    functions := [⟨"BadHandler", [injectableTag], [],
                   fnTy [Ty.mk (some "IHandler")
                           "IHandler<\x7b id: string \x7d>" true
                           [anonTy "\x7b id: string \x7d"] [] [] []]⟩]
    vars := []
    namespaces := [] }

/-- C2: a factory whose produced type itself is an inline anonymous
object. -/
def anonReturnFile : SourceFile :=
  { typeAliases := []
    interfaces := []
    classes := []
    functions := [⟨"R", [injectableTag], [],
                   fnTy [anonTy "\x7b x: string \x7d"]⟩]
    vars := []
    namespaces := [] }

/-- C3 (spec scenario 4): `A extends H<B>` and `B extends H<A>` — a
two-cycle between `AToken` and `BToken` in the token dependency graph. -/
def cyclicFile : SourceFile :=
  { typeAliases := []
    interfaces :=
      [⟨"H", true, [serviceTag], []⟩,
       ⟨"A", true, [serviceTag],
         [Ty.mk (some "H") "H<B>" true [namedTy "B"] [] [] []]⟩,
       ⟨"B", true, [serviceTag],
         [Ty.mk (some "H") "H<A>" true [namedTy "A"] [] [] []]⟩]
    classes := []
    functions := []
    vars := []
    namespaces := [] }

/-- C5: `C extends H<B>` plus two independent tokens `A`, `B` discovered in
the order `H, C, A, B`; `A` and `B` are incomparable in the dependency
order. -/
def tieBreakFile : SourceFile :=
  { typeAliases := []
    interfaces :=
      [⟨"H", true, [serviceTag], []⟩,
       ⟨"C", true, [serviceTag],
         [Ty.mk (some "H") "H<B>" true [namedTy "B"] [] [] []]⟩,
       ⟨"A", true, [serviceTag], []⟩,
       ⟨"B", true, [serviceTag], []⟩]
    classes := []
    functions := []
    vars := []
    namespaces := [] }

/-- C4 witness: multi interface `IPlugin` with factories `X(): IPlugin` and
`Y(): IPlugin`. -/
def multiFile : SourceFile :=
  { typeAliases := []
    interfaces := [⟨"IPlugin", true, [multiServiceTag], []⟩]
    classes := []
    functions :=
      [⟨"X", [injectableTag], [], fnTy [namedTy "IPlugin"]⟩,
       ⟨"Y", [injectableTag], [], fnTy [namedTy "IPlugin"]⟩]
    vars := []
    namespaces := [] }

/-- C7: registry knowing `H` and `V`. -/
def stateHV : GeneratorState :=
  { tokens := [("H", "HToken"), ("V", "VToken")], multiServices := [], factories := [] }

def tyV : Ty := namedTy "V"

def tyHV : Ty := .mk (some "H") "H<V>" true [tyV] [] [] []

/-- C7: the nested generic `H<H<V>>`. -/
def tyHHV : Ty := .mk (some "H") "H<H<V>>" true [tyHV] [] [] []

/-! ## Substring check (kernel-computable), used for diagnostics -/

def isPrefixCL : List Char → List Char → Bool
  | [], _ => true
  | _ :: _, [] => false
  | a :: as, b :: bs => a = b && isPrefixCL as bs

def containsSubAux (pat : List Char) : List Char → Bool
  | [] => isPrefixCL pat []
  | c :: rest => isPrefixCL pat (c :: rest) || containsSubAux pat rest

/-- Whether `pat` occurs as a contiguous substring of `s`. -/
def containsSub (s pat : String) : Bool := containsSubAux pat.data s.data

/-! ## Concrete states for the multi-service scenario -/

def factX : Factory :=
  { name := "X", isClass := false, deps := [], returnType := "X"
    module := "default", lifecycle := .transient, isMultiServiceImpl := true
    metadata := { implements := ["IPlugin"], generics := [] } }

def factY : Factory :=
  { name := "Y", isClass := false, deps := [], returnType := "Y"
    module := "default", lifecycle := .transient, isMultiServiceImpl := true
    metadata := { implements := ["IPlugin"], generics := [] } }

def multiState0 : GeneratorState :=
  { tokens := [("IPlugin", "IPluginToken")], multiServices := ["IPlugin"]
    factories := [] }

def multiState1 : GeneratorState := { multiState0 with factories := [factX] }

def multiState2 : GeneratorState :=
  { multiState0 with factories := [factX, factY] }

def urParams : List Ty :=
  [namedTy "IDatabase", Ty.mk none "string" false [] [] [] [], namedTy "ILogger"]

def urState : GeneratorState :=
  { tokens := [("IDatabase", "IDatabaseToken"), ("ILogger", "ILoggerToken")]
    multiServices := [], factories := [] }

def urFactory : Factory :=
  { name := "UserRepository", isClass := false
    deps := ["IDatabaseToken", "ILoggerToken"], returnType := "IUserRepository"
    module := "default", lifecycle := .transient, isMultiServiceImpl := false
    metadata := { implements := [], generics := [] } }

def urStateAfter : GeneratorState := { urState with factories := [urFactory] }

def regX : Registration := { target := .factoryToken "X", factoryName := "X" }

def regY : Registration := { target := .factoryToken "Y", factoryName := "Y" }

/-! ## Helper lemmas: the toposort invariant -/

theorem contains_true_iff {l : List String} {x : String} :
    l.contains x = true ↔ x ∈ l := by
  simp [List.contains, List.elem_iff]

/-- Unfolding step for the dependency fold inside `visit`. -/
theorem foldlM_visit_cons (deps : List (String × List String)) (n : Nat)
    (st : VisitSt) (d : String) (ds : List String) :
    (d :: ds).foldlM (fun acc x => visit deps n acc x) st =
      match visit deps n st d with
      | .error e => .error e
      | .ok st1 => ds.foldlM (fun acc x => visit deps n acc x) st1 := by
  rw [List.foldlM_cons]
  cases visit deps n st d <;> rfl

/-- Invariant of the three-colour traversal state: the output list is
duplicate-free, coincides with the done set, and is dependency-closed with
every dependency preceding its dependent. -/
structure GoodSt (deps : List (String × List String)) (st : VisitSt) : Prop where
  nodup : st.sorted.Nodup
  mem_visited : ∀ x, x ∈ st.sorted ↔ x ∈ st.visited
  closed : ∀ a ∈ st.sorted, ∀ b ∈ depsOf deps a,
    b ∈ st.sorted ∧ st.sorted.indexOf b < st.sorted.indexOf a

/-- A successful `visit` preserves the invariant and the in-progress set,
only appends to the output (never elements that were in progress), and puts
its argument into the output. -/
theorem visit_ok_invariant (deps : List (String × List String)) :
    ∀ (fuel : Nat) (st : VisitSt) (t : String) (st' : VisitSt),
      visit deps fuel st t = .ok st' → GoodSt deps st →
      GoodSt deps st' ∧ st'.visiting = st.visiting ∧
      (∃ l, st'.sorted = st.sorted ++ l ∧ ∀ x ∈ l, x ∉ st.visiting) ∧
      t ∈ st'.sorted := by
  intro fuel
  induction fuel with
  | zero =>
    intro st t st' h hg
    rw [visit] at h
    by_cases hvd : st.visited.contains t = true
    · rw [if_pos hvd] at h
      cases h
      exact ⟨hg, rfl, ⟨[], by simp, by simp⟩,
        (hg.mem_visited t).mpr (contains_true_iff.mp hvd)⟩
    · rw [if_neg hvd] at h
      by_cases hvg : st.visiting.contains t = true
      · rw [if_pos hvg] at h; simp at h
      · rw [if_neg hvg] at h; simp at h
  | succ n ih =>
    have fold :
        ∀ (ds : List String) (st : VisitSt) (st' : VisitSt),
          ds.foldlM (fun acc d => visit deps n acc d) st = .ok st' →
          GoodSt deps st →
          GoodSt deps st' ∧ st'.visiting = st.visiting ∧
          (∃ l, st'.sorted = st.sorted ++ l ∧ ∀ x ∈ l, x ∉ st.visiting) ∧
          ∀ d ∈ ds, d ∈ st'.sorted := by
      intro ds
      induction ds with
      | nil =>
        intro st st' h hg
        simp at h
        cases h
        exact ⟨hg, rfl, ⟨[], by simp, by simp⟩, by simp⟩
      | cons d ds ihd =>
        intro st st' h hg
        rw [foldlM_visit_cons] at h
        cases hd : visit deps n st d with
        | error e => rw [hd] at h; simp at h
        | ok st1 =>
          rw [hd] at h
          obtain ⟨hg1, hvis1, ⟨l1, hs1, hnew1⟩, hmem1⟩ := ih st d st1 hd hg
          obtain ⟨hg2, hvis2, ⟨l2, hs2, hnew2⟩, hcov2⟩ := ihd st1 st' h hg1
          refine ⟨hg2, by rw [hvis2, hvis1], ⟨l1 ++ l2, ?_, ?_⟩, ?_⟩
          · rw [hs2, hs1, List.append_assoc]
          · intro x hx
            rcases List.mem_append.mp hx with hx | hx
            · exact hnew1 x hx
            · have := hnew2 x hx
              rw [hvis1] at this
              exact this
          · intro e he
            rcases List.mem_cons.mp he with he | he
            · subst he
              rw [hs2]
              exact List.mem_append_left _ hmem1
            · exact hcov2 e he
    intro st t st' h hg
    rw [visit] at h
    by_cases hvd : st.visited.contains t = true
    · rw [if_pos hvd] at h
      cases h
      exact ⟨hg, rfl, ⟨[], by simp, by simp⟩,
        (hg.mem_visited t).mpr (contains_true_iff.mp hvd)⟩
    · rw [if_neg hvd] at h
      by_cases hvg : st.visiting.contains t = true
      · rw [if_pos hvg] at h; simp at h
      · rw [if_neg hvg] at h
        have htv : t ∉ st.visited := fun hm => hvd (contains_true_iff.mpr hm)
        have htg : t ∉ st.visiting := fun hm => hvg (contains_true_iff.mpr hm)
        have hts : t ∉ st.sorted := fun hm => htv ((hg.mem_visited t).mp hm)
        cases hf : (depsOf deps t).foldlM (fun acc d => visit deps n acc d)
            { st with visiting := st.visiting ++ [t] } with
        | error e => rw [hf] at h; simp at h
        | ok st2 =>
          rw [hf] at h
          have hg1 : GoodSt deps { st with visiting := st.visiting ++ [t] } :=
            ⟨hg.nodup, hg.mem_visited, hg.closed⟩
          obtain ⟨hg2, hvis2, ⟨l2, hs2, hnew2⟩, hcov2⟩ := fold _ _ st2 hf hg1
          have htl2 : t ∉ l2 := fun hm =>
            (hnew2 t hm) (List.mem_append_right _ (List.mem_singleton.mpr rfl))
          have hts2 : t ∉ st2.sorted := by
            rw [hs2]
            intro hm
            rcases List.mem_append.mp hm with hm | hm
            · exact hts hm
            · exact htl2 hm
          cases h
          refine ⟨?_, ?_, ⟨l2 ++ [t], ?_, ?_⟩, ?_⟩
          · refine ⟨?_, ?_, ?_⟩
            · exact hg2.nodup.append (List.nodup_singleton t)
                (fun x hx hx' => hts2 ((List.mem_singleton.mp hx') ▸ hx))
            · intro x
              simp only [List.mem_append, List.mem_singleton]
              constructor
              · rintro (hx | hx)
                · exact Or.inl ((hg2.mem_visited x).mp hx)
                · exact Or.inr hx
              · rintro (hx | hx)
                · exact Or.inl ((hg2.mem_visited x).mpr hx)
                · exact Or.inr hx
            · intro a ha b hb
              rcases List.mem_append.mp ha with ha | ha
              · obtain ⟨hbmem, hbidx⟩ := hg2.closed a ha b hb
                refine ⟨List.mem_append_left _ hbmem, ?_⟩
                rw [List.indexOf_append_of_mem hbmem,
                  List.indexOf_append_of_mem ha]
                exact hbidx
              · have hat : a = t := List.mem_singleton.mp ha
                subst hat
                have hbmem : b ∈ st2.sorted := hcov2 b hb
                refine ⟨List.mem_append_left _ hbmem, ?_⟩
                rw [List.indexOf_append_of_mem hbmem,
                  List.indexOf_append_of_not_mem hts2,
                  List.indexOf_cons_self]
                calc st2.sorted.indexOf b < st2.sorted.length :=
                      List.indexOf_lt_length.mpr hbmem
                  _ ≤ st2.sorted.length + 0 := by omega
          · show st2.visiting.erase t = st.visiting
            rw [hvis2]
            show (st.visiting ++ [t]).erase t = st.visiting
            rw [List.erase_append_right _ htg, List.erase_cons_head]
            simp
          · rw [hs2]
            show (st.sorted ++ l2) ++ [t] = st.sorted ++ (l2 ++ [t])
            rw [List.append_assoc]
          · intro x hx
            rcases List.mem_append.mp hx with hx | hx
            · intro hmem
              exact (hnew2 x hx) (List.mem_append_left _ hmem)
            · have hxt : x = t := List.mem_singleton.mp hx
              subst hxt
              exact htg
          · exact List.mem_append_right _ (List.mem_singleton.mpr rfl)

/-- The toposort driver preserves the invariant and covers every visited
token. -/
theorem topoLoop_ok_invariant (deps : List (String × List String)) :
    ∀ (ts : List String) (st st' : VisitSt),
      topoLoop deps st ts = .ok st' → GoodSt deps st →
      GoodSt deps st' ∧ (∀ x ∈ st.sorted, x ∈ st'.sorted) ∧
      ∀ t ∈ ts, t ∈ st'.sorted := by
  intro ts
  induction ts with
  | nil =>
    intro st st' h hg
    rw [topoLoop] at h
    cases h
    exact ⟨hg, fun x hx => hx, by simp⟩
  | cons t ts iht =>
    intro st st' h hg
    rw [topoLoop] at h
    cases hv : visit deps (deps.length + 2) st t with
    | error e => rw [hv] at h; simp at h
    | ok st1 =>
      rw [hv] at h
      obtain ⟨hg1, _, ⟨l1, hs1, _⟩, hmem1⟩ :=
        visit_ok_invariant deps _ st t st1 hv hg
      obtain ⟨hg2, hpre2, hcov2⟩ := iht st1 st' h hg1
      refine ⟨hg2, ?_, ?_⟩
      · intro x hx
        exact hpre2 x (by rw [hs1]; exact List.mem_append_left _ hx)
      · intro u hu
        rcases List.mem_cons.mp hu with hu | hu
        · subst hu; exact hpre2 u hmem1
        · exact hcov2 u hu

/-! ## Helper lemmas: state preservation and registration shape -/

theorem ensureToken_preserves (s : GeneratorState) (t : Ty) (c : String)
    (s' : GeneratorState) (tok : String)
    (h : ensureToken s t c = .ok (s', tok)) :
    s'.multiServices = s.multiServices ∧ s'.factories = s.factories := by
  rw [ensureToken] at h
  by_cases h1 : t.isObj = true ∧ t.symbolName = none ∧
      strContains t.text '\x7b' = true ∧ strContains t.text '\x7d' = true
  · rw [if_pos h1] at h; simp at h
  · rw [if_neg h1] at h
    by_cases h2 : getTypeName t = "" ∨ isPrimitive (getTypeName t) = true
    · rw [if_pos h2] at h
      cases h
      exact ⟨rfl, rfl⟩
    · rw [if_neg h2] at h
      by_cases h3 : strContains (getTypeName t) '\x7b' = true ∨
          strContains (getTypeName t) '\x7d' = true
      · rw [if_pos h3] at h; simp at h
      · rw [if_neg h3] at h
        cases h4 : alGet s.tokens (getTypeName t) with
        | some tk => rw [h4] at h; cases h; exact ⟨rfl, rfl⟩
        | none => rw [h4] at h; cases h; exact ⟨rfl, rfl⟩

theorem ensureTokensFor_preserves (c : String) :
    ∀ (ts : List Ty) (s s' : GeneratorState) (toks : List String),
      ensureTokensFor s ts c = .ok (s', toks) →
      s'.multiServices = s.multiServices ∧ s'.factories = s.factories := by
  intro ts
  induction ts with
  | nil =>
    intro s s' toks h
    rw [ensureTokensFor] at h
    cases h
    exact ⟨rfl, rfl⟩
  | cons t rest ihr =>
    intro s s' toks h
    rw [ensureTokensFor] at h
    split at h
    · simp at h
    · rename_i s1 tok heq
      split at h
      · simp at h
      · rename_i s2 toks2 heq2
        cases h
        obtain ⟨hm1, hf1⟩ := ensureToken_preserves s t c s1 tok heq
        obtain ⟨hm2, hf2⟩ := ihr s1 _ _ heq2
        exact ⟨hm2.trans hm1, hf2.trans hf1⟩

theorem extractBases_preserves :
    ∀ (bs : List Ty) (s : GeneratorState) (i g : List String)
      (s' : GeneratorState) (i' g' : List String),
      extractBases s bs i g = .ok (s', i', g') →
      s'.multiServices = s.multiServices ∧ s'.factories = s.factories := by
  intro bs
  induction bs with
  | nil =>
    intro s i g s' i' g' h
    rw [extractBases] at h
    cases h
    exact ⟨rfl, rfl⟩
  | cons b rest ihr =>
    intro s i g s' i' g' h
    rw [extractBases] at h
    split at h
    · rename_i btok hget
      split at h
      · simp at h
      · rename_i s1 gtoks heq
        obtain ⟨hm1, hf1⟩ :=
          ensureTokensFor_preserves _ b.typeArgs s s1 gtoks heq
        obtain ⟨hm2, hf2⟩ := ihr s1 _ _ s' i' g' h
        exact ⟨hm2.trans hm1, hf2.trans hf1⟩
    · exact ihr s i g s' i' g' h

theorem extractRetBases_preserves :
    ∀ (bs : List Ty) (s : GeneratorState) (i g : List String)
      (s' : GeneratorState) (i' g' : List String),
      extractRetBases s bs i g = .ok (s', i', g') →
      s'.multiServices = s.multiServices ∧ s'.factories = s.factories := by
  intro bs
  induction bs with
  | nil =>
    intro s i g s' i' g' h
    rw [extractRetBases] at h
    cases h
    exact ⟨rfl, rfl⟩
  | cons b rest ihr =>
    intro s i g s' i' g' h
    rw [extractRetBases] at h
    split at h
    · rename_i btok hget
      split at h
      · exact ihr s i g s' i' g' h
      · split at h
        · simp at h
        · rename_i s1 gtoks heq
          obtain ⟨hm1, hf1⟩ :=
            ensureTokensFor_preserves _ b.typeArgs s s1 gtoks heq
          obtain ⟨hm2, hf2⟩ := ihr s1 _ _ s' i' g' h
          exact ⟨hm2.trans hm1, hf2.trans hf1⟩
    · exact ihr s i g s' i' g' h

theorem extractRets_preserves :
    ∀ (rs : List Ty) (s : GeneratorState) (i g : List String)
      (s' : GeneratorState) (i' g' : List String),
      extractRets s rs i g = .ok (s', i', g') →
      s'.multiServices = s.multiServices ∧ s'.factories = s.factories := by
  intro rs
  induction rs with
  | nil =>
    intro s i g s' i' g' h
    rw [extractRets] at h
    cases h
    exact ⟨rfl, rfl⟩
  | cons r rest ihr =>
    intro s i g s' i' g' h
    rw [extractRets] at h
    split at h
    · simp at h
    · rename_i s1 i1 g1 hstep
      -- the `step` result: analyse how it was produced
      have hpres1 : s1.multiServices = s.multiServices ∧
          s1.factories = s.factories := by
        split at hstep
        · rename_i rtok hget
          split at hstep
          · cases hstep
            exact ⟨rfl, rfl⟩
          · split at hstep
            · simp at hstep
            · rename_i s0 gtoks heq
              cases hstep
              exact ensureTokensFor_preserves _ r.typeArgs s _ gtoks heq
        · cases hstep
          exact ⟨rfl, rfl⟩
      split at h
      · simp at h
      · rename_i s2 i2 g2 heq2
        obtain ⟨hm2, hf2⟩ :=
          extractRetBases_preserves r.baseTypes s1 i1 g1 s2 i2 g2 heq2
        obtain ⟨hm3, hf3⟩ := ihr s2 i2 g2 s' i' g' h
        exact ⟨(hm3.trans hm2).trans hpres1.1, (hf3.trans hf2).trans hpres1.2⟩

theorem extractMetadata_preserves (s : GeneratorState) (t : Ty)
    (s' : GeneratorState) (md : Metadata)
    (h : extractMetadata s t = .ok (s', md)) :
    s'.multiServices = s.multiServices ∧ s'.factories = s.factories := by
  rw [extractMetadata] at h
  split at h
  · simp at h
  · rename_i s1 i1 g1 hstart
    have hpres1 : s1.multiServices = s.multiServices ∧
        s1.factories = s.factories := by
      split at hstart
      · rename_i tok hget
        split at hstart
        · simp at hstart
        · rename_i s0 gtoks heq
          cases hstart
          exact ensureTokensFor_preserves _ t.typeArgs s _ _ heq
      · cases hstart
        exact ⟨rfl, rfl⟩
    split at h
    · simp at h
    · rename_i s2 i2 g2 heq2
      obtain ⟨hm2, hf2⟩ :=
        extractBases_preserves t.baseTypes s1 i1 g1 s2 i2 g2 heq2
      by_cases hsy : t.symbolName.isSome = true
      · rw [if_pos hsy] at h
        split at h
        · simp at h
        · rename_i s3 i3 g3 heq3
          cases h
          obtain ⟨hm3, hf3⟩ :=
            extractRets_preserves t.declRets s2 i2 g2 _ _ _ heq3
          exact ⟨(hm3.trans hm2).trans hpres1.1, (hf3.trans hf2).trans hpres1.2⟩
      · rw [if_neg hsy] at h
        cases h
        exact ⟨hm2.trans hpres1.1, hf2.trans hpres1.2⟩

/-! ## Helper lemmas: factory records, registrations, token names -/

/-- A successful `processFactory` run with a resolved produced type appends
exactly one factory record with the expected fields. -/
theorem processFactory_ok_shape (s : GeneratorState) (n : String)
    (ic : Bool) (ps : List Ty) (dt : Ty) (m : String) (lc : Lifecycle)
    (rt : Ty) (s' : GeneratorState)
    (hrt : resolveReturnType ic dt = some rt)
    (h : processFactory s n ic ps dt m lc = .ok s') :
    ∃ (s2 : GeneratorState) (paramDeps : List String) (md : Metadata),
      s2.multiServices = s.multiServices ∧
      s2.factories = s.factories ∧
      s'.tokens = s2.tokens ∧
      s'.multiServices = s2.multiServices ∧
      s'.factories = s2.factories ++ [{
        name := n
        isClass := ic
        deps := paramDeps
        returnType :=
          if s2.multiServices.contains (getTypeName rt) then n else getTypeName rt
        module := m
        lifecycle := lc
        isMultiServiceImpl := s2.multiServices.contains (getTypeName rt)
        metadata :=
          if s2.multiServices.contains (getTypeName rt) then
            { implements := [getTypeName rt], generics := md.generics }
          else md }] := by
  rw [processFactory] at h
  split at h
  · simp at h
  · rename_i s1 paramDeps heq1
    split at h
    · rename_i hnone
      rw [hrt] at hnone
      simp at hnone
    · rename_i rtv hsome
      rw [hrt] at hsome
      cases hsome
      split at h
      · simp at h
      · rename_i s2 md heq2
        cases h
        obtain ⟨hm1, hf1⟩ := ensureTokensFor_preserves _ ps s s1 paramDeps heq1
        obtain ⟨hm2, hf2⟩ := extractMetadata_preserves s1 rt s2 md heq2
        exact ⟨s2, paramDeps, md, hm2.trans hm1, hf2.trans hf1, rfl, rfl, rfl⟩

/-- A successful `processFactory` run on a callable with no call signature
(skip-with-warning path) creates no factory record. -/
theorem processFactory_skip_shape (s : GeneratorState) (n : String)
    (ps : List Ty) (dt : Ty) (m : String) (lc : Lifecycle)
    (s' : GeneratorState)
    (hrt : dt.callSigRets = [])
    (h : processFactory s n false ps dt m lc = .ok s') :
    s'.multiServices = s.multiServices ∧ s'.factories = s.factories := by
  rw [processFactory] at h
  split at h
  · simp at h
  · rename_i s1 paramDeps heq1
    split at h
    · cases h
      exact ensureTokensFor_preserves _ ps s _ paramDeps heq1
    · rename_i rtv hsome
      rw [show resolveReturnType false dt = none by
        rw [resolveReturnType]; simp [hrt]] at hsome
      simp at hsome

/-- Every container registration binds the per-factory token: the metadata
branch does so directly and the fallback branch fires because the
produced-type lookup goes through the undeclared `returnTypeName` field. -/
theorem registrationFor_eq (s : GeneratorState) (f : Factory) :
    registrationFor s f = { target := .factoryToken f.name, factoryName := f.name } := by
  rw [registrationFor, Factory.returnTypeName]
  split <;> rfl

/-- Every registration in every module of the produced plan targets its own
factory's token. -/
theorem generateContainers_targets (s : GeneratorState)
    (g : String × List Registration) (r : Registration)
    (hg : g ∈ generateContainers s) (hr : r ∈ g.2) :
    r.target = .factoryToken r.factoryName := by
  rw [generateContainers] at hg
  obtain ⟨gp, _, hgeq⟩ := List.mem_map.mp hg
  subst hgeq
  obtain ⟨f, _, hfeq⟩ := List.mem_map.mp hr
  rw [← hfeq, registrationFor_eq]

/-- `++ "Token"` is injective on names. -/
theorem appendToken_inj (a b : String) (h : a ++ "Token" = b ++ "Token") :
    a = b := by
  have hd := congrArg String.data h
  simp only [String.data_append] at hd
  have := List.append_cancel_right hd
  cases a; cases b
  exact congrArg String.mk this

/-- `name ++ "Token"` is never empty. -/
theorem appendToken_ne_empty (a : String) : a ++ "Token" ≠ "" := by
  intro h
  have hd := congrArg String.data h
  simp [String.data_append] at hd

/-! ## Helper lemmas: canonical token values, anonymous types, emission -/

/-- Every value in the tokens map is its key with `"Token"` appended — an
invariant of all three token-minting sites. -/
def TokensCanonical (s : GeneratorState) : Prop :=
  ∀ p ∈ s.tokens, p.2 = p.1 ++ "Token"

/-- The `ensureToken` guard deciding whether a parameter type contributes a
dependency token. -/
def contributesDep (t : Ty) : Bool :=
  if getTypeName t = "" ∨ isPrimitive (getTypeName t) then false else true

theorem alGet_canonical {s : GeneratorState} (hc : TokensCanonical s)
    {k v : String} (h : alGet s.tokens k = some v) : v = k ++ "Token" := by
  rw [alGet] at h
  cases hf : s.tokens.find? (fun p => p.1 = k) with
  | none => rw [hf] at h; simp at h
  | some pr =>
    rw [hf] at h
    simp at h
    have hmem := List.mem_of_find?_eq_some hf
    have hkey : pr.1 = k := by
      have := List.find?_some hf
      simpa using this
    rw [← h, hc pr hmem, hkey]

theorem alSet_append {α : Type} (m : List (String × α)) (k : String) (v : α)
    (h : alGet m k = none) : alSet m k v = m ++ [(k, v)] := by
  rw [alSet, if_neg]
  intro hany
  rw [alGet] at h
  obtain ⟨p, hp, hpk⟩ := List.any_eq_true.mp hany
  have : ¬ ((fun p => decide (p.1 = k)) p = true) := by
    have hnone : m.find? (fun p => decide (p.1 = k)) = none := by
      cases hfind : m.find? (fun p => decide (p.1 = k)) with
      | none => rfl
      | some q => rw [hfind] at h; simp at h
    exact List.find?_eq_none.mp hnone p hp
  exact this hpk

/-- `ensureToken` under the canonical invariant: the state stays canonical
and the returned token is `""` exactly for skipped (unnamed or primitive)
types, and `<name>Token` otherwise. -/
theorem ensureToken_canonical (s : GeneratorState) (t : Ty) (c : String)
    (s' : GeneratorState) (tok : String) (hc : TokensCanonical s)
    (h : ensureToken s t c = .ok (s', tok)) :
    TokensCanonical s' ∧
    tok = (if getTypeName t = "" ∨ isPrimitive (getTypeName t) then ""
           else getTypeName t ++ "Token") := by
  rw [ensureToken] at h
  by_cases h1 : t.isObj = true ∧ t.symbolName = none ∧
      strContains t.text '\x7b' = true ∧ strContains t.text '\x7d' = true
  · rw [if_pos h1] at h; simp at h
  · rw [if_neg h1] at h
    by_cases h2 : getTypeName t = "" ∨ isPrimitive (getTypeName t) = true
    · rw [if_pos h2] at h
      cases h
      constructor
      · exact hc
      · rw [if_pos (by simpa using h2)]
    · rw [if_neg h2] at h
      by_cases h3 : strContains (getTypeName t) '\x7b' = true ∨
          strContains (getTypeName t) '\x7d' = true
      · rw [if_pos h3] at h; simp at h
      · rw [if_neg h3] at h
        cases h4 : alGet s.tokens (getTypeName t) with
        | some tk =>
          rw [h4] at h
          cases h
          constructor
          · exact hc
          · rw [if_neg (by simpa using h2)]
            exact alGet_canonical hc h4
        | none =>
          rw [h4] at h
          cases h
          constructor
          · intro p hp
            rw [alSet_append _ _ _ h4] at hp
            rcases List.mem_append.mp hp with hp | hp
            · exact hc p hp
            · rw [List.mem_singleton.mp hp]
          · rw [if_neg (by simpa using h2)]

/-- `ensureTokensFor` under the canonical invariant: the collected
dependency tokens are exactly the non-primitive named parameter types, in
order, mapped to `<name>Token`. -/
theorem ensureTokensFor_canonical (c : String) :
    ∀ (ps : List Ty) (s s' : GeneratorState) (toks : List String),
      TokensCanonical s →
      ensureTokensFor s ps c = .ok (s', toks) →
      TokensCanonical s' ∧
      toks = (ps.filter contributesDep).map (fun p => getTypeName p ++ "Token") := by
  intro ps
  induction ps with
  | nil =>
    intro s s' toks hc h
    rw [ensureTokensFor] at h
    cases h
    exact ⟨hc, by simp⟩
  | cons t rest ih =>
    intro s s' toks hc h
    rw [ensureTokensFor] at h
    split at h
    · simp at h
    · rename_i s1 tok heq
      split at h
      · simp at h
      · rename_i s2 toks2 heq2
        cases h
        obtain ⟨hc1, htok⟩ := ensureToken_canonical s t c s1 tok hc heq
        obtain ⟨hc2, htoks⟩ := ih s1 _ _ hc1 heq2
        refine ⟨hc2, ?_⟩
        by_cases hskip : getTypeName t = "" ∨ isPrimitive (getTypeName t) = true
        · have htok0 : tok = "" := by
            rw [htok, if_pos (by simpa using hskip)]
          have hcon : contributesDep t = false := by
            rw [contributesDep, if_pos (by simpa using hskip)]
          rw [if_pos htok0, htoks, List.filter_cons, hcon]
          simp
        · have htok1 : tok = getTypeName t ++ "Token" := by
            rw [htok, if_neg (by simpa using hskip)]
          have hcon : contributesDep t = true := by
            rw [contributesDep, if_neg (by simpa using hskip)]
          rw [if_neg (by rw [htok1]; exact appendToken_ne_empty _),
            htoks, List.filter_cons, hcon]
          simp [htok1]

/-- An anonymous/structural type: an object type with no symbol whose text
contains braces. -/
def AnonInlineObj (t : Ty) : Prop :=
  t.isObj = true ∧ t.symbolName = none ∧
  strContains t.text '\x7b' = true ∧ strContains t.text '\x7d' = true

theorem ensureToken_anon_error (s : GeneratorState) (t : Ty) (c : String)
    (h : AnonInlineObj t) :
    ensureToken s t c = .error (inlineObjectErr1 c t.text) := by
  obtain ⟨h1, h2, h3, h4⟩ := h
  rw [ensureToken, if_pos ⟨h1, h2, h3, h4⟩]

theorem ensureTokensFor_anon_error (c : String) :
    ∀ (ps : List Ty) (s : GeneratorState) (p : Ty),
      p ∈ ps → AnonInlineObj p →
      ∃ e, ensureTokensFor s ps c = .error e := by
  intro ps
  induction ps with
  | nil =>
    intro s p hp
    simp at hp
  | cons t rest ih =>
    intro s p hp ha
    rcases List.mem_cons.mp hp with hp | hp
    · subst hp
      exact ⟨_, by rw [ensureTokensFor, ensureToken_anon_error s p c ha]⟩
    · cases h1 : ensureToken s t c with
      | error e => exact ⟨e, by rw [ensureTokensFor, h1]⟩
      | ok pr =>
        obtain ⟨s1, tok⟩ := pr
        obtain ⟨e, he⟩ := ih s1 p hp ha
        exact ⟨e, by rw [ensureTokensFor]; simp [h1, he]⟩

/-- Any factory declaration with an anonymous inline object parameter makes
`processFactory` fail. -/
theorem processFactory_anon_error (s : GeneratorState) (n : String)
    (ic : Bool) (ps : List Ty) (dt : Ty) (m : String) (lc : Lifecycle)
    (p : Ty) (hp : p ∈ ps) (ha : AnonInlineObj p) :
    ∃ e, processFactory s n ic ps dt m lc = .error e := by
  obtain ⟨e, he⟩ := ensureTokensFor_anon_error (n ++ " parameter") ps s p hp ha
  exact ⟨e, by rw [processFactory]; simp [he]⟩

/-- `multiImplStep` never removes emitted declarations. -/
theorem multiImplStep_mono (s : GeneratorState) (acc : List TokenDecl)
    (f : Factory) (x : TokenDecl) (hx : x ∈ acc) :
    x ∈ multiImplStep s acc f := by
  rw [multiImplStep]
  split
  · split
    · exact hx
    · exact List.mem_append_left _ hx
  · exact hx

theorem multiFold_mono (s : GeneratorState) :
    ∀ (fs : List Factory) (acc : List TokenDecl) (x : TokenDecl),
      x ∈ acc → x ∈ fs.foldl (multiImplStep s) acc := by
  intro fs
  induction fs with
  | nil => intro acc x hx; exact hx
  | cons f rest ih =>
    intro acc x hx
    exact ih (multiImplStep s acc f) x (multiImplStep_mono s acc f x hx)

/-- Every multi-service implementation whose per-factory token name is not
an already-registered token value gets its declaration emitted. -/
theorem multiImplTokenDecls_mem (s : GeneratorState) (f : Factory)
    (hf : f ∈ s.factories) (hmi : f.isMultiServiceImpl = true)
    (hfresh : (s.tokens.map (·.2)).contains (f.name ++ "Token") = false) :
    multiImplDecl f ∈ multiImplTokenDecls s := by
  rw [multiImplTokenDecls]
  have main : ∀ (fs : List Factory) (acc : List TokenDecl), f ∈ fs →
      multiImplDecl f ∈ fs.foldl (multiImplStep s) acc := by
    intro fs
    induction fs with
    | nil => intro acc hmem; simp at hmem
    | cons g rest ih =>
      intro acc hmem
      rcases List.mem_cons.mp hmem with hmem | hmem
      · subst hmem
        rw [List.foldl_cons]
        apply multiFold_mono
        rw [multiImplStep, if_pos hmi,
          if_neg (fun hcontra => by rw [hfresh] at hcontra; exact Bool.noConfusion hcontra)]
        exact List.mem_append_right _ (List.mem_singleton.mpr rfl)
      · exact ih (multiImplStep s acc g) hmem
  exact main s.factories [] hf

/-! ## Helper lemmas: the fixed inspection depth of `extractMetadata` -/

theorem getTypeName_headOnly (u : Ty) :
    getTypeName (headOnly u) = getTypeName u := by cases u; rfl

theorem ensureToken_headOnly (s : GeneratorState) (u : Ty) (c : String) :
    ensureToken s (headOnly u) c = ensureToken s u c := by cases u; rfl

theorem ensureTokensFor_headOnly (c : String) :
    ∀ (l : List Ty) (s : GeneratorState),
      ensureTokensFor s (l.map headOnly) c = ensureTokensFor s l c := by
  intro l
  induction l with
  | nil => intro s; rfl
  | cons t rest ih =>
    intro s
    simp only [List.map_cons, ensureTokensFor, ensureToken_headOnly, ih]

theorem getTypeName_truncShallow (u : Ty) :
    getTypeName (truncShallow u) = getTypeName u := by cases u; rfl

theorem typeArgs_truncShallow (u : Ty) :
    (truncShallow u).typeArgs = u.typeArgs.map headOnly := by cases u; rfl

theorem extractBases_trunc :
    ∀ (bs : List Ty) (s : GeneratorState) (i g : List String),
      extractBases s (bs.map truncShallow) i g = extractBases s bs i g := by
  intro bs
  induction bs with
  | nil => intro s i g; rfl
  | cons b rest ih =>
    intro s i g
    simp only [List.map_cons, extractBases, getTypeName_truncShallow,
      typeArgs_truncShallow, ensureTokensFor_headOnly, ih]

theorem extractRetBases_trunc :
    ∀ (bs : List Ty) (s : GeneratorState) (i g : List String),
      extractRetBases s (bs.map truncShallow) i g = extractRetBases s bs i g := by
  intro bs
  induction bs with
  | nil => intro s i g; rfl
  | cons b rest ih =>
    intro s i g
    simp only [List.map_cons, extractRetBases, getTypeName_truncShallow,
      typeArgs_truncShallow, ensureTokensFor_headOnly, ih]

theorem getTypeName_truncRet (u : Ty) :
    getTypeName (truncRet u) = getTypeName u := by cases u; rfl

theorem typeArgs_truncRet (u : Ty) :
    (truncRet u).typeArgs = u.typeArgs.map headOnly := by cases u; rfl

theorem baseTypes_truncRet (u : Ty) :
    (truncRet u).baseTypes = u.baseTypes.map truncShallow := by cases u; rfl

theorem extractRets_trunc :
    ∀ (rs : List Ty) (s : GeneratorState) (i g : List String),
      extractRets s (rs.map truncRet) i g = extractRets s rs i g := by
  intro rs
  induction rs with
  | nil => intro s i g; rfl
  | cons r rest ih =>
    intro s i g
    simp only [List.map_cons, extractRets, getTypeName_truncRet,
      typeArgs_truncRet, baseTypes_truncRet, ensureTokensFor_headOnly,
      extractRetBases_trunc, ih]

/-! # Claims -/

/-- C1 (counterexample): on the single-interface scenario — interface `A`
(`@Service`) and parameterless factory `F(): A` — the default-module plan is
`[(FToken, F)]`, whose binding target is the per-factory token
`Factories.FToken`, not `A`'s own token `Tokens.AToken`; so the claimed plan
`[(AToken, F)]` is not produced. -/
theorem C1_counterexample :
    (pipelineRun [scenario1File]).map (·.plan) =
      .ok [("default", [{ target := .factoryToken "F", factoryName := "F" }])] ∧
    BindingTarget.factoryToken "F" ≠ BindingTarget.typeToken "AToken" :=
  ⟨rfl, by decide⟩

/-- C1 (amended): for interface `A` (single) and factory `F(): A` with no
parameters, resolution produces exactly one token `AToken` and one factory
record with an empty dependency list — but the default-module plan is the
single binding `(FToken, F)` on the per-factory token: the factory's
metadata records `implements [AToken]`, which is nonempty, so the planner
binds the factory's own token (and the produced-type branch is additionally
dead because the lookup reads the undeclared `returnTypeName` field). -/
theorem C1_scenario1_resolution :
    pipelineRun [scenario1File] = .ok
      { tokens := [("A", "AToken")]
        factories := [{ name := "F", isClass := false, deps := []
                        returnType := "A", module := "default"
                        lifecycle := .transient, isMultiServiceImpl := false
                        metadata := { implements := ["AToken"], generics := [] } }]
        deps := [("AToken", [])]
        tokenOrder := ["AToken"]
        tokenDecls := [{ name := "AToken", tsType := "A", label := "A", meta := none }]
        plan := [("default", [{ target := .factoryToken "F", factoryName := "F" }])] } :=
  rfl

/-- C2 (counterexample): a factory whose produced (return) type is an
anonymous inline object is *not* fatal: the run completes, the factory
record is created (with the structural text as its `returnType`), and a
plan is produced — the return-type site never reaches `ensureToken`. -/
theorem C2_counterexample :
    pipelineRun [anonReturnFile] = .ok
      { tokens := []
        factories := [{ name := "R", isClass := false, deps := []
                        returnType := "\x7b x: string \x7d", module := "default"
                        lifecycle := .transient, isMultiServiceImpl := false
                        metadata := { implements := [], generics := [] } }]
        deps := []
        tokenOrder := []
        tokenDecls := []
        plan := [("default", [{ target := .factoryToken "R", factoryName := "R" }])] } :=
  rfl

/-- C2 (amended): an anonymous/structural type is fatal and non-recoverable
at the sites that pass through `ensureToken` — any factory parameter
(universally: any declaration with such a parameter makes `processFactory`
fail, aborting the run), and a generic argument of a token-bearing type —
with a diagnostic naming the offending type text; but an anonymous factory
*return type* itself is not detected and does not abort. -/
theorem C2_structural_type_fatal :
    (∀ (s : GeneratorState) (n : String) (ic : Bool) (ps : List Ty) (dt : Ty)
       (m : String) (lc : Lifecycle) (p : Ty),
      p ∈ ps → AnonInlineObj p →
      ∃ e, processFactory s n ic ps dt m lc = .error e) ∧
    pipelineRun [anonParamFile] =
      .error (inlineObjectErr1 "BadFactory parameter" "\x7b apiUrl: string \x7d") ∧
    pipelineRun [anonGenericFile] =
      .error (inlineObjectErr1 "IHandler generic" "\x7b id: string \x7d") :=
  ⟨processFactory_anon_error, rfl, rfl⟩

/-- C2 (witness): the fatal-parameter half of `C2_structural_type_fatal`
applied to the concrete inline-object parameter of `anonParamFile`. -/
theorem C2_witness :
    AnonInlineObj (anonTy "\x7b apiUrl: string \x7d") ∧
    ∃ e, processFactory initialState "BadFactory" false
        [anonTy "\x7b apiUrl: string \x7d"] (fnTy [namedTy "IService"])
        "default" .transient = .error e :=
  ⟨⟨by decide, by decide, by decide, by decide⟩,
    C2_structural_type_fatal.1 initialState "BadFactory" false _ _ "default"
      .transient _ (List.mem_singleton.mpr rfl)
      ⟨by decide, by decide, by decide, by decide⟩⟩

/-- C3 (counterexample): on the spec's own two-cycle scenario (`A extends
H<B>`, `B extends H<A>`), resolution does fail, but the diagnostic names
only the token at which the cycle was detected (`AToken`); the other token
on the cycle, `BToken`, does not occur anywhere in the message — the
diagnostic does not report the full token chain. -/
theorem C3_counterexample :
    pipelineRun [cyclicFile] =
      .error "Circular dependency detected in token: AToken" ∧
    containsSub "Circular dependency detected in token: AToken" "AToken" = true ∧
    containsSub "Circular dependency detected in token: AToken" "BToken" = false :=
  ⟨rfl, rfl, rfl⟩

/-- C3 (amended): a cycle in the token dependency graph is fatal: whenever
two tokens depend on each other (and one of them is visited), the
topological sort can never succeed — so no order and no plan are produced —
and on the spec's two-cycle example the run aborts with the cycle
diagnostic, which names (only) the token at which the cycle was
detected. -/
theorem C3_cycle_fatal :
    (∀ (deps : List (String × List String)) (ts : List String) (a b : String)
       (st' : VisitSt),
      b ∈ depsOf deps a → a ∈ depsOf deps b → a ∈ ts →
      topoLoop deps ⟨[], [], []⟩ ts ≠ .ok st') ∧
    pipelineRun [cyclicFile] =
      .error "Circular dependency detected in token: AToken" := by
  constructor
  · intro deps ts a b st' hab hba ha hok
    have hg0 : GoodSt deps ⟨[], [], []⟩ := ⟨List.nodup_nil, by simp, by simp⟩
    obtain ⟨hg, _, hcov⟩ := topoLoop_ok_invariant deps ts _ st' hok hg0
    have haS := hcov a ha
    obtain ⟨hbS, hlt1⟩ := hg.closed a haS b hab
    obtain ⟨_, hlt2⟩ := hg.closed b hbS a hba
    omega
  · rfl

/-- C3 (witness): the impossibility half of `C3_cycle_fatal` applied to the
concrete two-cycle dependency map `AToken ↔ BToken`. -/
theorem C3_witness :
    ("BToken" ∈ depsOf [("AToken", ["BToken"]), ("BToken", ["AToken"])] "AToken") ∧
    topoLoop [("AToken", ["BToken"]), ("BToken", ["AToken"])] ⟨[], [], []⟩
        ["AToken", "BToken"] ≠ .ok ⟨[], [], []⟩ :=
  ⟨by decide,
    C3_cycle_fatal.1 [("AToken", ["BToken"]), ("BToken", ["AToken"])]
      ["AToken", "BToken"] "AToken" "BToken" ⟨[], [], []⟩
      (by decide) (by decide) (by decide)⟩

/-- C4: multi-cardinality isolation.  For a multi-service interface `P` and
two factory declarations `X`, `Y` whose produced types resolve to `P`
(names pairwise distinct from each other and from `P`, and with their
per-factory token names not already registered token values): the two
appended factory records are multi-implementations carrying
`implements [P]`; the emitted per-factory tokens are `XToken` and `YToken`,
distinct from each other and from `PToken`, each carrying `implements`
metadata referring to `PToken`; and no registration in the plan ever binds
`P`'s own token. -/
theorem C4_multi_isolation
    (s s1 s2 : GeneratorState) (P nX nY : String)
    (icX icY : Bool) (pX pY : List Ty) (dtX dtY rtX rtY : Ty)
    (mX mY : String) (lX lY : Lifecycle)
    (hP : s.multiServices.contains P = true)
    (hrX : resolveReturnType icX dtX = some rtX) (hnX : getTypeName rtX = P)
    (hrY : resolveReturnType icY dtY = some rtY) (hnY : getTypeName rtY = P)
    (hX : processFactory s nX icX pX dtX mX lX = .ok s1)
    (hY : processFactory s1 nY icY pY dtY mY lY = .ok s2)
    (hXY : nX ≠ nY) (hXP : nX ≠ P) (hYP : nY ≠ P)
    (hfX : (s2.tokens.map (·.2)).contains (nX ++ "Token") = false)
    (hfY : (s2.tokens.map (·.2)).contains (nY ++ "Token") = false) :
    (∃ fX fY : Factory,
      s2.factories = s.factories ++ [fX, fY] ∧
      fX.name = nX ∧ fX.isMultiServiceImpl = true ∧
      fX.metadata.implements = [P] ∧
      fY.name = nY ∧ fY.isMultiServiceImpl = true ∧
      fY.metadata.implements = [P] ∧
      multiImplDecl fX ∈ multiImplTokenDecls s2 ∧
      multiImplDecl fY ∈ multiImplTokenDecls s2 ∧
      (multiImplDecl fX).name = nX ++ "Token" ∧
      (multiImplDecl fY).name = nY ++ "Token" ∧
      (multiImplDecl fX).meta =
        some { implements := [P ++ "Token"], generics := fX.metadata.generics } ∧
      (multiImplDecl fY).meta =
        some { implements := [P ++ "Token"], generics := fY.metadata.generics }) ∧
    nX ++ "Token" ≠ nY ++ "Token" ∧
    nX ++ "Token" ≠ P ++ "Token" ∧
    nY ++ "Token" ≠ P ++ "Token" ∧
    (∀ g ∈ generateContainers s2, ∀ r ∈ g.2,
      r.target ≠ BindingTarget.typeToken (P ++ "Token")) := by
  obtain ⟨sX, depsX, mdX, hXm, hXf, hXtk, hXms, hXfac⟩ :=
    processFactory_ok_shape s nX icX pX dtX mX lX rtX s1 hrX hX
  obtain ⟨sY, depsY, mdY, hYm, hYf, hYtk, hYms, hYfac⟩ :=
    processFactory_ok_shape s1 nY icY pY dtY mY lY rtY s2 hrY hY
  have hmultiX : sX.multiServices.contains (getTypeName rtX) = true := by
    rw [hXm, hnX]; exact hP
  have hs1ms : s1.multiServices = s.multiServices := by rw [hXms, hXm]
  have hmultiY : sY.multiServices.contains (getTypeName rtY) = true := by
    rw [hYm, hs1ms, hnY]; exact hP
  set fX : Factory :=
    { name := nX, isClass := icX, deps := depsX
      returnType := if sX.multiServices.contains (getTypeName rtX) then nX else getTypeName rtX
      module := mX, lifecycle := lX
      isMultiServiceImpl := sX.multiServices.contains (getTypeName rtX)
      metadata :=
        if sX.multiServices.contains (getTypeName rtX) then
          { implements := [getTypeName rtX], generics := mdX.generics }
        else mdX } with hfXdef
  set fY : Factory :=
    { name := nY, isClass := icY, deps := depsY
      returnType := if sY.multiServices.contains (getTypeName rtY) then nY else getTypeName rtY
      module := mY, lifecycle := lY
      isMultiServiceImpl := sY.multiServices.contains (getTypeName rtY)
      metadata :=
        if sY.multiServices.contains (getTypeName rtY) then
          { implements := [getTypeName rtY], generics := mdY.generics }
        else mdY } with hfYdef
  have hfacts : s2.factories = s.factories ++ [fX, fY] := by
    rw [hYfac, hYf, hXfac, hXf, List.append_assoc]
    rfl
  have hXmi : fX.isMultiServiceImpl = true := by rw [hfXdef]; exact hmultiX
  have hYmi : fY.isMultiServiceImpl = true := by rw [hfYdef]; exact hmultiY
  have hXimpl : fX.metadata.implements = [P] := by
    rw [hfXdef]
    simp only [hmultiX, if_true]
    rw [hnX]
  have hYimpl : fY.metadata.implements = [P] := by
    rw [hfYdef]
    simp only [hmultiY, if_true]
    rw [hnY]
  have hXname : fX.name = nX := by rw [hfXdef]
  have hYname : fY.name = nY := by rw [hfYdef]
  have hXmem : fX ∈ s2.factories := by
    rw [hfacts]
    exact List.mem_append_right _ (by simp)
  have hYmem : fY ∈ s2.factories := by
    rw [hfacts]
    exact List.mem_append_right _ (by simp)
  refine ⟨⟨fX, fY, hfacts, hXname, hXmi, hXimpl, hYname, hYmi, hYimpl,
      ?_, ?_, ?_, ?_, ?_, ?_⟩, ?_, ?_, ?_, ?_⟩
  · exact multiImplTokenDecls_mem s2 fX hXmem hXmi (by rw [hXname]; exact hfX)
  · exact multiImplTokenDecls_mem s2 fY hYmem hYmi (by rw [hYname]; exact hfY)
  · rw [multiImplDecl, hXname]
  · rw [multiImplDecl, hYname]
  · rw [multiImplDecl, hXimpl]
    simp
  · rw [multiImplDecl, hYimpl]
    simp
  · intro h; exact hXY (appendToken_inj _ _ h)
  · intro h; exact hXP (appendToken_inj _ _ h)
  · intro h; exact hYP (appendToken_inj _ _ h)
  · intro g hg r hr
    rw [generateContainers_targets s2 g r hg hr]
    intro h
    exact BindingTarget.noConfusion h

/-- C4 (witness): `C4_multi_isolation` at the concrete multi interface
`IPlugin` with factories `X(): IPlugin` and `Y(): IPlugin`. -/
theorem C4_witness :
    (∃ fX fY : Factory,
      multiState2.factories = multiState0.factories ++ [fX, fY] ∧
      fX.name = "X" ∧ fX.isMultiServiceImpl = true ∧
      fX.metadata.implements = ["IPlugin"] ∧
      fY.name = "Y" ∧ fY.isMultiServiceImpl = true ∧
      fY.metadata.implements = ["IPlugin"] ∧
      multiImplDecl fX ∈ multiImplTokenDecls multiState2 ∧
      multiImplDecl fY ∈ multiImplTokenDecls multiState2 ∧
      (multiImplDecl fX).name = "X" ++ "Token" ∧
      (multiImplDecl fY).name = "Y" ++ "Token" ∧
      (multiImplDecl fX).meta =
        some { implements := ["IPlugin" ++ "Token"], generics := fX.metadata.generics } ∧
      (multiImplDecl fY).meta =
        some { implements := ["IPlugin" ++ "Token"], generics := fY.metadata.generics }) ∧
    "X" ++ "Token" ≠ "Y" ++ "Token" ∧
    "X" ++ "Token" ≠ "IPlugin" ++ "Token" ∧
    "Y" ++ "Token" ≠ "IPlugin" ++ "Token" ∧
    (∀ g ∈ generateContainers multiState2, ∀ r ∈ g.2,
      r.target ≠ BindingTarget.typeToken ("IPlugin" ++ "Token")) :=
  C4_multi_isolation multiState0 multiState1 multiState2 "IPlugin" "X" "Y"
    false false [] [] (fnTy [namedTy "IPlugin"]) (fnTy [namedTy "IPlugin"])
    (namedTy "IPlugin") (namedTy "IPlugin") "default" "default"
    .transient .transient (by decide) rfl rfl rfl rfl rfl rfl
    (by decide) (by decide) (by decide) (by decide) (by decide)

/-- C5 (counterexample): on `tieBreakFile` (tokens discovered in the order
`H, C, A, B`, single edge `CToken → BToken`), the emitted order is
`[HToken, BToken, CToken, AToken]`.  `AToken` and `BToken` are incomparable
in the dependency order — both have empty dependency sets, so no path
relates them — and `A` was discovered before `B`, yet `BToken` is emitted
before `AToken`: ties are not broken by first-discovery (insertion)
order. -/
theorem C5_counterexample :
    (pipelineRun [tieBreakFile]).map (·.tokenOrder) =
      .ok ["HToken", "BToken", "CToken", "AToken"] ∧
    (pipelineRun [tieBreakFile]).map (·.tokens) =
      .ok [("H", "HToken"), ("C", "CToken"), ("A", "AToken"), ("B", "BToken")] ∧
    (pipelineRun [tieBreakFile]).map (·.deps) =
      .ok [("HToken", []), ("CToken", ["BToken"]), ("AToken", []), ("BToken", [])] ∧
    depsOf [("HToken", []), ("CToken", ["BToken"]), ("AToken", []), ("BToken", [])]
      "AToken" = [] ∧
    depsOf [("HToken", []), ("CToken", ["BToken"]), ("AToken", []), ("BToken", [])]
      "BToken" = [] ∧
    ["HToken", "CToken", "AToken", "BToken"].indexOf "AToken" <
      ["HToken", "CToken", "AToken", "BToken"].indexOf "BToken" ∧
    ["HToken", "BToken", "CToken", "AToken"].indexOf "BToken" <
      ["HToken", "BToken", "CToken", "AToken"].indexOf "AToken" :=
  ⟨rfl, rfl, rfl, rfl, rfl, by decide, by decide⟩

/-- C5 (amended): topological soundness holds — whenever `generateTokens`
succeeds, every registered token value appears in the emitted order, and
for every dependency edge `a → b` of the token graph, `b` appears in the
order strictly before `a` — but tokens unrelated by the partial order are
emitted in depth-first completion order, not in first-discovery order. -/
theorem C5_topological_soundness (s : GeneratorState)
    (files : List SourceFile) (out : GenTokensOut)
    (h : generateTokens s files = .ok out) :
    (∀ t ∈ out.state.tokens.map (·.2), t ∈ out.order) ∧
    ∀ a ∈ out.order, ∀ b ∈ depsOf out.deps a,
      b ∈ out.order ∧ out.order.indexOf b < out.order.indexOf a := by
  rw [generateTokens] at h
  split at h
  · simp at h
  · rename_i s1 deps meta heq1
    split at h
    · simp at h
    · rename_i st heq2
      cases h
      have hg0 : GoodSt deps ⟨[], [], []⟩ := ⟨List.nodup_nil, by simp, by simp⟩
      obtain ⟨hg, _, hcov⟩ := topoLoop_ok_invariant deps _ _ _ heq2 hg0
      exact ⟨fun t ht => hcov t ht, fun a ha b hb => hg.closed a ha b hb⟩

/-- C5 (witness): `C5_topological_soundness` at the tie-break scenario. -/
theorem C5_witness :
    (∀ t ∈ [("H", "HToken"), ("C", "CToken"), ("A", "AToken"),
        ("B", "BToken")].map (fun p => p.2),
      t ∈ ["HToken", "BToken", "CToken", "AToken"]) ∧
    ∀ a ∈ ["HToken", "BToken", "CToken", "AToken"],
      ∀ b ∈ depsOf [("HToken", []), ("CToken", ["BToken"]), ("AToken", []),
          ("BToken", [])] a,
        b ∈ ["HToken", "BToken", "CToken", "AToken"] ∧
        ["HToken", "BToken", "CToken", "AToken"].indexOf b <
          ["HToken", "BToken", "CToken", "AToken"].indexOf a :=
  C5_topological_soundness
    (autoDetectTokens (collectTokens initialState [tieBreakFile]) [tieBreakFile])
    [tieBreakFile]
    { state := { tokens := [("H", "HToken"), ("C", "CToken"), ("A", "AToken"),
                   ("B", "BToken")], multiServices := [], factories := [] }
      deps := [("HToken", []), ("CToken", ["BToken"]), ("AToken", []),
               ("BToken", [])]
      metaMap := [("CToken", { implements := ["HToken"], generics := ["BToken"] })]
      order := ["HToken", "BToken", "CToken", "AToken"]
      decls := [{ name := "HToken", tsType := "H", label := "H", meta := none },
                { name := "BToken", tsType := "B", label := "B", meta := none },
                { name := "CToken", tsType := "C", label := "C"
                  meta := some { implements := ["HToken"], generics := ["BToken"] } },
                { name := "AToken", tsType := "A", label := "A", meta := none }] }
    rfl

/-- C6: the container generator's produced-type lookup reads the field
`returnTypeName`, which no `Factory` record ever sets (the collector stores
the produced type under `returnType`), so the lookup is always `none`; in
consequence every factory — in particular every factory whose metadata
lists no `implements` and no `generics` — is registered under its own
per-factory token, and no registration ever binds a factory to its produced
type's token through that branch. -/
theorem C6_returnTypeName_lookup_dead :
    (∀ (s : GeneratorState) (f : Factory),
      (match f.returnTypeName with
       | none => none
       | some k => alGet s.tokens k) = (none : Option String)) ∧
    (∀ (s : GeneratorState) (g : String × List Registration) (r : Registration),
      g ∈ generateContainers s → r ∈ g.2 →
      r.target = .factoryToken r.factoryName) :=
  ⟨fun _ _ => rfl, fun s g r hg hr => generateContainers_targets s g r hg hr⟩

/-- C6 (witness): the registration-target half of
`C6_returnTypeName_lookup_dead` at the concrete multi-service plan. -/
theorem C6_witness :
    regX.target = .factoryToken regX.factoryName :=
  C6_returnTypeName_lookup_dead.2 multiState2 ("default", [regX, regY]) regX
    (by rw [show generateContainers multiState2 = [("default", [regX, regY])] from rfl]
        simp)
    (by simp)

/-- C7 (counterexample): the metadata walk is not the visited-set-bounded
recursive walk the specification describes.  On the nested generic
`H<H<V>>` (with `H` and `V` both tokenized), the source's `extractMetadata`
stops at the outermost generic argument and collects only `HToken`, while
the spec-modelled recursive walk (`extractMetadataSpec`, bounded by a
visited set keyed on type identity plus the depth counter the spec offers)
also reaches `V` and collects `VToken`: the two walks disagree, so no
visited-set-bounded recursion exists in the code. -/
theorem C7_counterexample :
    extractMetadata stateHV tyHHV =
      .ok (stateHV, { implements := ["HToken"], generics := ["HToken"] }) ∧
    extractMetadataSpec stateHV 10 tyHHV =
      { implements := ["HToken", "VToken"], generics := ["HToken", "VToken"] } ∧
    ({ implements := ["HToken"], generics := ["HToken"] } : Metadata) ≠
      { implements := ["HToken", "VToken"], generics := ["HToken", "VToken"] } :=
  ⟨rfl, rfl, by decide⟩

/-- C7 (amended): the metadata-extraction walk terminates on every input —
including generically self-referential declarations — not because of a
visited set (none exists in the code) but because it is non-recursive with
a fixed inspection depth: its result is unchanged when the input type is
truncated to the portion `truncTy` keeps (the type's head, its argument
heads, its base types with their argument heads, and its declarations'
return types with their argument heads and base types), so it never
descends into nested generic arguments or deeper structure. -/
theorem C7_fixed_depth_termination (s : GeneratorState) (t : Ty) :
    extractMetadata s (truncTy t) = extractMetadata s t := by
  have h1 : getTypeName (truncTy t) = getTypeName t := by cases t; rfl
  have h2 : (truncTy t).typeArgs = t.typeArgs.map headOnly := by cases t; rfl
  have h3 : (truncTy t).baseTypes = t.baseTypes.map truncShallow := by
    cases t; rfl
  have h4 : (truncTy t).symbolName = t.symbolName := by cases t; rfl
  have h5 : (truncTy t).declRets = t.declRets.map truncRet := by cases t; rfl
  simp only [extractMetadata, h1, h2, h3, h4, h5, ensureTokensFor_headOnly,
    extractBases_trunc, extractRets_trunc]

/-- C8: for every collected factory, `deps` is exactly the declaration's
non-primitive named parameter types, in parameter order, one token each —
primitive-typed (`string`/`number`/`boolean`/`any`/`void`/`unknown`) and
unnamed parameters contribute no entry (stated under the canonical-token
invariant that all minting sites maintain). -/
theorem C8_deps_match_params (s s' : GeneratorState) (n : String) (ic : Bool)
    (ps : List Ty) (dt rt : Ty) (m : String) (lc : Lifecycle)
    (hc : TokensCanonical s)
    (hrt : resolveReturnType ic dt = some rt)
    (hok : processFactory s n ic ps dt m lc = .ok s') :
    ∃ f : Factory, s'.factories = s.factories ++ [f] ∧
      f.deps = (ps.filter contributesDep).map (fun p => getTypeName p ++ "Token") ∧
      f.deps.length = (ps.filter contributesDep).length := by
  rw [processFactory] at hok
  split at hok
  · simp at hok
  · rename_i s1 paramDeps heq1
    split at hok
    · rename_i hnone
      rw [hrt] at hnone
      simp at hnone
    · rename_i rtv hsome
      rw [hrt] at hsome
      cases hsome
      split at hok
      · simp at hok
      · rename_i s2 md heq2
        cases hok
        obtain ⟨hc1, hdeps⟩ := ensureTokensFor_canonical _ ps s s1 paramDeps hc heq1
        obtain ⟨_, hf1⟩ := ensureTokensFor_preserves _ ps s s1 paramDeps heq1
        obtain ⟨_, hf2⟩ := extractMetadata_preserves s1 rt s2 md heq2
        refine ⟨{ name := n, isClass := ic, deps := paramDeps
                  returnType :=
                    if s2.multiServices.contains (getTypeName rt) then n
                    else getTypeName rt
                  module := m, lifecycle := lc
                  isMultiServiceImpl := s2.multiServices.contains (getTypeName rt)
                  metadata :=
                    if s2.multiServices.contains (getTypeName rt) then
                      { implements := [getTypeName rt], generics := md.generics }
                    else md }, ?_, hdeps, ?_⟩
        · show s2.factories ++ [_] = s.factories ++ [_]
          rw [hf2, hf1]
        · show paramDeps.length = _
          rw [hdeps, List.length_map]

/-- C8 (witness): `C8_deps_match_params` on a factory with a primitive
(`string`) parameter between two service-typed parameters: the string
parameter contributes no entry and the two service tokens appear in
parameter order. -/
theorem C8_witness :
    TokensCanonical urState ∧
    ∃ f : Factory, urStateAfter.factories = urState.factories ++ [f] ∧
      f.deps = (urParams.filter contributesDep).map
        (fun p => getTypeName p ++ "Token") ∧
      f.deps.length = (urParams.filter contributesDep).length :=
  ⟨by intro p hp; fin_cases hp <;> decide,
    C8_deps_match_params urState urStateAfter "UserRepository" false urParams
      (fnTy [namedTy "IUserRepository"]) (namedTy "IUserRepository")
      "default" .transient (by intro p hp; fin_cases hp <;> decide) rfl rfl⟩

/-- C9: a non-class injectable whose type has no resolvable call signature
is skipped: no factory record is created, the multi-service set is
untouched, and the collector simply continues with the remaining
declarations from the post-skip state. -/
theorem C9_unresolvable_callable_skipped (s s' : GeneratorState)
    (fn : FunctionDecl) (rest : List FunctionDecl)
    (hcs : fn.declType.callSigRets = [])
    (hok : collectFromFunction s fn = .ok s') :
    s'.factories = s.factories ∧ s'.multiServices = s.multiServices ∧
    collectFnList s (fn :: rest) = collectFnList s' rest := by
  have hloop : collectFnList s (fn :: rest) = collectFnList s' rest := by
    rw [collectFnList, hok]
  rw [collectFromFunction] at hok
  split at hok
  · cases hok
    exact ⟨rfl, rfl, hloop⟩
  · split at hok
    · cases hok
      exact ⟨rfl, rfl, hloop⟩
    · obtain ⟨hf, hm⟩ := processFactory_skip_shape s fn.name fn.params
        fn.declType (getModuleNameL fn.tags) (getLifecycleL fn.tags) s' hcs hok
      exact ⟨hm, hf, hloop⟩

/-- C9 (witness): `C9_unresolvable_callable_skipped` on an `@Injectable`
function whose type exposes no call signature; its parameter still mints a
token, but no factory record appears and the loop proceeds. -/
theorem C9_witness :
    (⟨[("T", "TToken")], [], []⟩ : GeneratorState).factories =
      initialState.factories ∧
    (⟨[("T", "TToken")], [], []⟩ : GeneratorState).multiServices =
      initialState.multiServices ∧
    collectFnList initialState
        [⟨"G", [injectableTag], [namedTy "T"], Ty.mk none "obj" false [] [] [] []⟩] =
      collectFnList ⟨[("T", "TToken")], [], []⟩ [] :=
  C9_unresolvable_callable_skipped initialState ⟨[("T", "TToken")], [], []⟩
    ⟨"G", [injectableTag], [namedTy "T"], Ty.mk none "obj" false [] [] [] []⟩
    [] rfl rfl

/-- C10: resolution is deterministic — the pipeline is a pure function of
the input snapshot, each run starting from the same fresh state, so two
runs on equal inputs produce identical tokens, factory records, token
order, emitted declarations, and per-module registration plans. -/
theorem C10_deterministic (files1 files2 : List SourceFile)
    (h : files1 = files2) : pipelineRun files1 = pipelineRun files2 := by
  rw [h]

/-- C10 (witness): two runs on the single-interface scenario agree. -/
theorem C10_witness : pipelineRun [scenario1File] = pipelineRun [scenario1File] :=
  C10_deterministic [scenario1File] [scenario1File] rfl

end Fioc
